import Mathlib

/-!
Verification of the diag session engine of the CellModemDiagParser
repository (a shallow embedding of `src/scat/parsers/qualcomm/qualcommparser.py`).

Conventions of the embedding:
* byte strings are `List Nat` (each element is one byte, `< 256` for real inputs);
* Python text strings are `List Char`;
* machine integers stay `Nat`/`Int` with explicit masking where the source masks;
* code that can raise returns `Except PyErr _`; a Python function that can
  `return None` returns `Option _` inside the `Except`;
* `time.time()` values are modelled as `ℚ` arguments supplied by the trace;
* the helper module `scat.util` and the constant module `scat.parsers.qualcomm.diagcmd`
  are not part of the repository snapshot; the few pieces of them the claims
  depend on are modelled from the specification and marked as such.
-/

namespace Scat

/-- Python exception kinds that the embedded code can raise. -/
inductive PyErr where
  | structError
  | indexError
  | typeError
  | valueError
  | keyError
  | assertError
  | fuelError
  deriving DecidableEq, Repr

/-- Prefix test on character lists (`str.startswith` of Python). -/
def leadsWith : List Char → List Char → Bool
  | [], _ => true
  | _ :: _, [] => false
  | p :: ps, c :: cs => p == c && leadsWith ps cs

/-- Substring membership test (Python's `in` on strings). -/
def containsSub (needle s : List Char) : Bool :=
  match s with
  | [] => leadsWith needle []
  | _ :: rest => leadsWith needle s || containsSub needle rest

/-- Python `str.strip()` whitespace set (ASCII part, which covers the inputs here). -/
def pySpace (c : Char) : Bool :=
  c == ' ' || c == '\t' || c == '\n' || c == '\r' || c == '\x0b' || c == '\x0c'

/-- Python `str.strip()`. -/
def pyStrip (s : List Char) : List Char :=
  ((s.dropWhile pySpace).reverse.dropWhile pySpace).reverse

/-- Little-endian read of `n` bytes of `pkt` starting at offset `off`
(assumes the caller has checked the length, as `struct.unpack` does).
Each element is reduced mod 256 since a Python `bytes` element is one byte. -/
def leRead (pkt : List Nat) (off n : Nat) : Nat :=
  ((pkt.drop off).take n).foldr (fun b acc => acc * 256 + b % 256) 0

/-- `pkt[i]` with an `IndexError` when out of range. -/
def pyIndex (pkt : List Nat) (i : Nat) : Except PyErr Nat :=
  match pkt.get? i with
  | some b => .ok (b % 256)
  | none => .error .indexError

/-- `struct.unpack` length discipline: the slice `pkt[off:off+n]` must hold
exactly `n` bytes, otherwise `struct.error` is raised. -/
def unpackSlice (pkt : List Nat) (off n : Nat) : Except PyErr (List Nat) :=
  if off + n ≤ pkt.length then .ok ((pkt.drop off).take n) else .error .structError

/-- Decimal digits of a natural number (`fuel ≥ n + 1` always suffices, so the
wrapper below never exhausts it; fuel keeps the recursion structural so that
proofs can evaluate it). -/
def natDigitsGo : Nat → Nat → List Char
  | 0, _ => []
  | fuel + 1, n =>
    if n < 10 then [Char.ofNat (48 + n)]
    else natDigitsGo fuel (n / 10) ++ [Char.ofNat (48 + n % 10)]

/-- Decimal digits of a natural number. -/
def natDigits (n : Nat) : List Char := natDigitsGo (n + 1) n

/-- Python `str(n)` for an integer. -/
def intStr (i : Int) : List Char :=
  if i < 0 then '-' :: natDigits i.natAbs else natDigits i.natAbs

/-- One lowercase hex digit. -/
def hexDigit (d : Nat) : Char :=
  if d < 10 then Char.ofNat (48 + d) else Char.ofNat (87 + d)

/-- Lowercase hex digits of a natural number (structural fuel as above). -/
def natHexGo : Nat → Nat → List Char
  | 0, _ => []
  | fuel + 1, n =>
    if n < 16 then [hexDigit n]
    else natHexGo fuel (n / 16) ++ [hexDigit (n % 16)]

/-- Lowercase hex digits of a natural number. -/
def natHex (n : Nat) : List Char := natHexGo (n + 1) n

/-- `binascii.hexlify` of a byte string (two lowercase hex digits per byte). -/
def hexlify (bs : List Nat) : List Char :=
  bs.foldr (fun b acc => hexDigit (b / 16 % 16) :: hexDigit (b % 16) :: acc) []

/-- Python `int(s)` on a string: optional sign and at least one digit after
stripping whitespace; anything else raises `ValueError`. -/
def pyInt (s : List Char) : Except PyErr Int :=
  match pyStrip s with
  | '-' :: ds => (fun n => -(n : Int)) <$> digitsVal ds
  | '+' :: ds => (fun n => (n : Int)) <$> digitsVal ds
  | ds => (fun n => (n : Int)) <$> digitsVal ds
where
  digitsVal : List Char → Except PyErr Nat
    | [] => .error .valueError
    | ds =>
      if ds.all (·.isDigit) then
        .ok (ds.foldl (fun acc c => acc * 10 + (c.toNat - 48)) 0)
      else .error .valueError

/-- `bytes.decode(errors='backslashreplace')`, restricted to the ASCII range
that the concrete inputs of this development use: bytes below 0x80 decode to
their character, higher bytes to a `\xNN` escape. -/
def bytesDecode (bs : List Nat) : List Char :=
  bs.foldr
    (fun b acc =>
      if b < 128 then Char.ofNat b :: acc
      else '\\' :: 'x' :: hexDigit (b / 16 % 16) :: hexDigit (b % 16) :: acc)
    []

/-- The source function `QualcommParser.sanitize_radio_id`. -/
def sanitize_radio_id (radio_id : Int) : Int :=
  if radio_id ≤ 0 then 0
  else if radio_id > 2 then 1
  else radio_id - 1

/-! ### Pieces of `scat.util` and `scat.parsers.qualcomm.diagcmd`
These two modules are referenced by `qualcommparser.py` but are not part of
the repository snapshot, so they are modelled from the specification. -/

/-- Modelled from the spec: `util.dm_crc16`, the CRC-16/X-25 used by the diag
framing — polynomial 0x8408, reflected, init 0xFFFF, final XOR 0xFFFF
(spec section 3, "Diag Frame"). -/
def dm_crc16 (bs : List Nat) : Nat :=
  Nat.xor (bs.foldl (fun crc b => crcByte (Nat.xor crc (b % 256))) 0xffff) 0xffff
where
  crcStep (crc : Nat) : Nat :=
    if crc % 2 == 1 then Nat.xor (crc / 2) 0x8408 else crc / 2
  crcByte (crc : Nat) : Nat :=
    crcStep (crcStep (crcStep (crcStep (crcStep (crcStep (crcStep (crcStep crc)))))))

/-- Modelled from the spec: `util.unwrap`, the HDLC unescape — `0x7D` followed
by a byte yields that byte XOR `0x20` (spec section 4.1).  A lone trailing
`0x7D` is kept verbatim; no input used in this development contains one. -/
def unwrap : List Nat → List Nat
  | [] => []
  | [b] => [b]
  | b :: c :: rest =>
    if b == 0x7d then Nat.xor c 0x20 :: unwrap rest
    else b :: unwrap (c :: rest)

/-- Modelled from the spec: the QXDM timestamp conversion `util.parse_qxdm_ts`
(64-bit tick counter) and Python `datetime.datetime.now()`.  The claims never
inspect the converted value, so timestamps are kept symbolic. -/
inductive TsVal where
  | qxdm (ticks : Nat)
  | wallclock
  deriving DecidableEq, Repr

/-- Modelled from the spec: `util.parse_qxdm_ts`. -/
def parse_qxdm_ts (ticks : Nat) : TsVal := .qxdm ticks

/-- Modelled from the spec: the diag opcode constants of the missing `diagcmd`
module (spec section 4.5 names them; the numeric values are the standard
Qualcomm diag ones — only their distinctness matters here). -/
def DIAG_VERNO_F : Nat := 0x00
def DIAG_LOG_F : Nat := 0x10
def DIAG_EVENT_REPORT_F : Nat := 0x60
def DIAG_LOG_CONFIG_F : Nat := 0x73
def DIAG_EXT_MSG_F : Nat := 0x79
def DIAG_EXT_BUILD_ID_F : Nat := 0x7c
def DIAG_EXT_MSG_CONFIG_F : Nat := 0x7d
def DIAG_EXT_MSG_TERSE_F : Nat := 0x92
def DIAG_QSR_EXT_MSG_TERSE_F : Nat := 0x96
def DIAG_MULTI_RADIO_CMD_F : Nat := 0x98
def DIAG_QSR4_EXT_MSG_TERSE_F : Nat := 0x99
def DIAG_QSH_TRACE_PAYLOAD_F : Nat := 0x9b
def DIAG_SECURE_LOG_F : Nat := 0xb6

/-- Modelled from the spec: `diagcmd` log-config sub-operation codes
(spec section 4.9). -/
def LOG_CONFIG_DISABLE_OP : Nat := 0
def LOG_CONFIG_RETRIEVE_ID_RANGES_OP : Nat := 1
def LOG_CONFIG_RETRIEVE_VALID_MASK_OP : Nat := 2
def LOG_CONFIG_SET_MASK_OP : Nat := 3
def LOG_CONFIG_GET_LOGMASK_OP : Nat := 4

/-! ### The format-string interpreter `QualcommParser._snprintf`
The source drives two regexes (`cfmt`, `cfmt_nums`) over the template and then
leans on Python's `str.format`; both are embedded as scanners below. -/

/-- A flag character of the conversion syntax `[-+0 #]`. -/
def isFlagChar (c : Char) : Bool :=
  c == '-' || c == '+' || c == '0' || c == ' ' || c == '#'

/-- A conversion character `[duxXp]`. -/
def isConvChar (c : Char) : Bool :=
  c == 'd' || c == 'u' || c == 'x' || c == 'X' || c == 'p'

/-- Greedily take up to `n` flag characters (`[-+0 #]{0,5}`). -/
def takeFlags : Nat → List Char → (List Char × List Char)
  | 0, s => ([], s)
  | _ + 1, [] => ([], [])
  | n + 1, c :: rest =>
    if isFlagChar c then
      (c :: (takeFlags n rest).1, (takeFlags n rest).2)
    else ([], c :: rest)

/-- Greedily take decimal digits. -/
def takeDigits : List Char → (List Char × List Char)
  | [] => ([], [])
  | c :: rest =>
    if c.isDigit then
      (c :: (takeDigits rest).1, (takeDigits rest).2)
    else ([], c :: rest)

/-- The width part `(?:\d+|\*)?`. -/
def takeWidth (s : List Char) : (List Char × List Char) :=
  match s with
  | '*' :: rest => (['*'], rest)
  | _ => takeDigits s

/-- The precision part `(?:\.(?:\d+|\*))?`. -/
def takePrec (s : List Char) : (List Char × List Char) :=
  match s with
  | '.' :: '*' :: rest => (['.', '*'], rest)
  | '.' :: c :: rest =>
    if c.isDigit then
      ('.' :: (takeDigits (c :: rest)).1, (takeDigits (c :: rest)).2)
    else ([], '.' :: c :: rest)
  | _ => ([], s)

/-- Drop a concrete prefix, or fail. -/
def dropPre : List Char → List Char → Option (List Char)
  | [], s => some s
  | _ :: _, [] => none
  | p :: ps, c :: cs => if p == c then dropPre ps cs else none

/-- The length-modifier alternation `(?:h|l|ll|w|I|I32|I64)?` of the source
regex.  Python's backtracking accepts whichever alternative (or none) leaves a
conversion character next; at most one can, so a candidate search is faithful. -/
def modCands : List (List Char) :=
  [['I', '3', '2'], ['I', '6', '4'], ['l', 'l'], ['h'], ['l'], ['w'], ['I'], []]

/-- Search the modifier candidates; on success return
(modifier, conversion char, rest after the conversion char). -/
def tryModFrom : List (List Char) → List Char → Option (List Char × Char × List Char)
  | [], _ => none
  | m :: ms, s =>
    match dropPre m s with
    | some (c :: rest) => if isConvChar c then some (m, c, rest) else tryModFrom ms s
    | _ => tryModFrom ms s

/-- Attempt to match one conversion of the `cfmt` regex right after a `%`;
returns the whole matched token (with the `%`) and the rest of the input. -/
def tryConv (s : List Char) : Option (List Char × List Char) :=
  match s with
  | '%' :: rest => some (['%', '%'], rest)
  | _ =>
    let (flags, s1) := takeFlags 5 s
    let (width, s2) := takeWidth s1
    let (prec, s3) := takePrec s2
    match tryModFrom modCands s3 with
    | some (m, c, rest) => some ('%' :: (flags ++ width ++ prec ++ m ++ [c]), rest)
    | none => none

theorem takeFlags_len : ∀ n s, (takeFlags n s).2.length ≤ s.length := by
  intro n
  induction n with
  | zero => intro s; simp [takeFlags]
  | succ n ih =>
    intro s
    cases s with
    | nil => simp [takeFlags]
    | cons c rest =>
      simp only [takeFlags]
      split
      · simpa using Nat.le_succ_of_le (ih rest)
      · simp

theorem takeDigits_len : ∀ s, (takeDigits s).2.length ≤ s.length := by
  intro s
  induction s with
  | nil => simp [takeDigits]
  | cons c rest ih =>
    simp only [takeDigits]
    split
    · simpa using Nat.le_succ_of_le ih
    · simp

theorem takeWidth_len : ∀ s, (takeWidth s).2.length ≤ s.length := by
  intro s
  unfold takeWidth
  split
  · simp
  · exact takeDigits_len _

theorem takePrec_len : ∀ s, (takePrec s).2.length ≤ s.length := by
  intro s
  unfold takePrec
  split
  · simp only [List.length_cons]; omega
  · split
    · exact le_trans (takeDigits_len _) (by simp only [List.length_cons]; omega)
    · simp
  · simp

theorem dropPre_len : ∀ p s r, dropPre p s = some r → r.length ≤ s.length := by
  intro p
  induction p with
  | nil => intro s r h; simp [dropPre] at h; simp [h]
  | cons x xs ih =>
    intro s r h
    cases s with
    | nil => simp [dropPre] at h
    | cons c cs =>
      simp only [dropPre] at h
      split at h
      · exact Nat.le_succ_of_le (ih _ _ h)
      · exact absurd h (by simp)

theorem tryModFrom_len : ∀ ms s m c r, tryModFrom ms s = some (m, c, r) →
    r.length ≤ s.length := by
  intro ms
  induction ms with
  | nil => intro s m c r h; simp [tryModFrom] at h
  | cons x xs ih =>
    intro s m c r h
    simp only [tryModFrom] at h
    split at h
    · next heq =>
      split at h
      · cases h
        have := dropPre_len _ _ _ heq
        simp at this; omega
      · exact ih _ _ _ _ h
    · exact ih _ _ _ _ h

theorem tryConv_len : ∀ s tok r, tryConv s = some (tok, r) → r.length ≤ s.length := by
  intro s tok r h
  unfold tryConv at h
  split at h
  · cases h; simp
  · simp only at h
    split at h
    · next m c rest heq =>
      cases h
      have h3 := tryModFrom_len _ _ _ _ _ heq
      have h2 := takePrec_len (takeWidth (takeFlags 5 s).2).2
      have h1 := takeWidth_len (takeFlags 5 s).2
      have h0 := takeFlags_len 5 s
      omega
    · exact absurd h (by simp)

/-- One pass of `cfmt.findall` and `cfmt.sub('{}', …)` over the template:
returns the list of conversion tokens and the template with each conversion
replaced by a brace pair.  Every step consumes at least one character
(`tryConv_len`), so `fuel ≥ length + 1` never runs out; fuel keeps the
recursion structural so that proofs can evaluate it. -/
def cfmtScanGo : Nat → List Char → (List (List Char) × List Char)
  | 0, s => ([], s)
  | _ + 1, [] => ([], [])
  | fuel + 1, c :: rest =>
    if c == '%' then
      match tryConv rest with
      | some (tok, rest') =>
        (tok :: (cfmtScanGo fuel rest').1, '\x7b' :: '\x7d' :: (cfmtScanGo fuel rest').2)
      | none => ((cfmtScanGo fuel rest).1, c :: (cfmtScanGo fuel rest).2)
    else ((cfmtScanGo fuel rest).1, c :: (cfmtScanGo fuel rest).2)

/-- `cfmt.findall` and `cfmt.sub` over the template. -/
def cfmtScan (s : List Char) : List (List Char) × List Char :=
  cfmtScanGo (s.length + 1) s

/-! ### A model of Python's `str.format` (the library builtin `_snprintf` uses) -/

/-- Parsed form of a format-spec mini-language string. -/
structure FSpec where
  fill : Option Char := none
  align : Option Char := none
  sign : Option Char := none
  alt : Bool := false
  zero : Bool := false
  width : Nat := 0
  prec : Option Nat := none
  ptype : Option Char := none
  deriving Repr, DecidableEq

/-- An alignment character of the format-spec mini-language. -/
def isAlignChar (c : Char) : Bool :=
  c == '<' || c == '>' || c == '^' || c == '='

/-- Parse a format-spec mini-language string (the part after `:` in a
replacement field); unsupported or malformed specs raise `ValueError` as
CPython does. -/
def parseFSpec (s : List Char) : Except PyErr FSpec :=
  let (fill, align, s1) : Option Char × Option Char × List Char :=
    match s with
    | a :: b :: rest =>
      if isAlignChar b then (some a, some b, rest)
      else if isAlignChar a then (none, some a, b :: rest) else (none, none, s)
    | [a] => if isAlignChar a then (none, some a, []) else (none, none, s)
    | [] => (none, none, [])
  let (sign, s2) : Option Char × List Char :=
    match s1 with
    | c :: rest => if c == '+' || c == '-' || c == ' ' then (some c, rest) else (none, s1)
    | [] => (none, [])
  let (alt, s3) : Bool × List Char :=
    match s2 with
    | '#' :: rest => (true, rest)
    | _ => (false, s2)
  let (zero, s4) : Bool × List Char :=
    match s3 with
    | '0' :: rest => (true, rest)
    | _ => (false, s3)
  let wdigits := (takeDigits s4).1
  let s5 := (takeDigits s4).2
  let widthVal := wdigits.foldl (fun acc c => acc * 10 + (c.toNat - 48)) 0
  match s5 with
  | '.' :: rest =>
    let pdigits := (takeDigits rest).1
    let s6 := (takeDigits rest).2
    if pdigits.isEmpty then .error .valueError
    else
      let precVal := pdigits.foldl (fun acc c => acc * 10 + (c.toNat - 48)) 0
      match s6 with
      | [] => .ok ⟨fill, align, sign, alt, zero, widthVal, some precVal, none⟩
      | [t] => .ok ⟨fill, align, sign, alt, zero, widthVal, some precVal, some t⟩
      | _ => .error .valueError
  | [] => .ok ⟨fill, align, sign, alt, zero, widthVal, none, none⟩
  | [t] => .ok ⟨fill, align, sign, alt, zero, widthVal, none, some t⟩
  | _ => .error .valueError

/-- Pad `body` to `width` according to fill/align, with `'='` padding inserted
after the given sign-and-prefix part. -/
def padTo (fill : Char) (align : Char) (width : Nat) (head body : List Char) : List Char :=
  let full := head ++ body
  if width ≤ full.length then full
  else
    let pad := width - full.length
    match align with
    | '<' => full ++ List.replicate pad fill
    | '^' => List.replicate (pad / 2) fill ++ full ++ List.replicate (pad - pad / 2) fill
    | '=' => head ++ List.replicate pad fill ++ body
    | _ => List.replicate pad fill ++ full

/-- `'\x7b:SPEC\x7d'.format(v)` for an integer `v`: the subset of CPython's
integer formatting reachable from `_snprintf` (types `d`/`x`/`X` or none);
anything else raises `ValueError` as CPython does. -/
def pyIntFormat (spec : List Char) (v : Int) : Except PyErr (List Char) := do
  let fs ← parseFSpec spec
  if fs.prec.isSome then .error .valueError
  else do
    let digits ← (match fs.ptype with
      | some 'x' => .ok (natHex v.natAbs)
      | some 'X' => .ok ((natHex v.natAbs).map Char.toUpper)
      | some 'd' => .ok (natDigits v.natAbs)
      | none => .ok (natDigits v.natAbs)
      | some _ => .error .valueError : Except PyErr (List Char))
    let signStr : List Char :=
      if v < 0 then ['-']
      else match fs.sign with
        | some '+' => ['+']
        | some ' ' => [' ']
        | _ => []
    let pre : List Char :=
      if fs.alt then
        match fs.ptype with
        | some 'x' => ['0', 'x']
        | some 'X' => ['0', 'X']
        | _ => []
      else []
    let fill := fs.fill.getD (if fs.zero then '0' else ' ')
    let align := fs.align.getD (if fs.zero then '=' else '>')
    .ok (padTo fill align fs.width (signStr ++ pre) digits)

/-- `'\x7b:SPEC\x7d'.format(s)` for a string `s`: the subset of CPython's
string formatting needed here (sign/alt/zero/`'='` raise `ValueError`). -/
def pyStrFormat (spec : List Char) (s : List Char) : Except PyErr (List Char) := do
  let fs ← parseFSpec spec
  if fs.sign.isSome || fs.alt || fs.zero || fs.align == some '=' then .error .valueError
  else match fs.ptype with
    | some 's' | none =>
      let truncated := match fs.prec with
        | some p => s.take p
        | none => s
      .ok (padTo (fs.fill.getD ' ') (fs.align.getD '<') fs.width [] truncated)
    | some _ => .error .valueError

/-- Scan a replacement field up to its matching closing brace (one level of
nesting per depth counter); returns the field body and the rest. -/
def splitField : Nat → List Char → Option (List Char × List Char)
  | _, [] => none
  | d, c :: rest =>
    if c = '\x7d' then
      match d with
      | 0 => some ([], rest)
      | d' + 1 => (splitField d' rest).map (fun p => (c :: p.1, p.2))
    else if c = '\x7b' then
      (splitField (d + 1) rest).map (fun p => (c :: p.1, p.2))
    else
      (splitField d rest).map (fun p => (c :: p.1, p.2))

theorem splitField_len : ∀ s d f r, splitField d s = some (f, r) → r.length < s.length := by
  intro s
  induction s with
  | nil => intro d f r h; simp [splitField] at h
  | cons c rest ih =>
    intro d f r h
    simp only [splitField] at h
    split at h
    · split at h
      · cases h; simp
      · rw [Option.map_eq_some'] at h
        obtain ⟨⟨f', r'⟩, hp, he⟩ := h
        cases he
        have := ih _ _ _ hp
        simp only [List.length_cons]; omega
    · split at h
      · rw [Option.map_eq_some'] at h
        obtain ⟨⟨f', r'⟩, hp, he⟩ := h
        cases he
        have := ih _ _ _ hp
        simp only [List.length_cons]; omega
      · rw [Option.map_eq_some'] at h
        obtain ⟨⟨f', r'⟩, hp, he⟩ := h
        cases he
        have := ih _ _ _ hp
        simp only [List.length_cons]; omega

/-- Split a character list at the first occurrence of `ch`. -/
def splitAtFirst (ch : Char) : List Char → (List Char × Option (List Char))
  | [] => ([], none)
  | c :: rest =>
    if c = ch then ([], some rest)
    else
      ((c :: (splitAtFirst ch rest).1), (splitAtFirst ch rest).2)

/-- Apply a `!conversion` of a replacement field to a string value. -/
def pyConvApply (conv : Char) (s : List Char) : Except PyErr (List Char) :=
  if conv = 's' then .ok s
  else if conv = 'r' || conv = 'a' then .ok ('\'' :: (s ++ ['\'']))
  else .error .valueError

/-- Positional-argument numbering state of `str.format`. -/
inductive FmtMode where
  | unset
  | autoNum
  | manualNum
  deriving DecidableEq, Repr

/-- Process one replacement field body: `[name][!conv][:spec]`. -/
def pyFormatField (args : List (List Char)) (mode : FmtMode) (auto : Nat)
    (field : List Char) : Except PyErr (List Char × FmtMode × Nat) := do
  let namePart := (splitAtFirst ':' field).1
  let specPart := (splitAtFirst ':' field).2
  let nameOnly := (splitAtFirst '!' namePart).1
  let convPart := (splitAtFirst '!' namePart).2
  let conv ← (match convPart with
    | none => .ok none
    | some [c] => .ok (some c)
    | some _ => .error .valueError : Except PyErr (Option Char))
  let pick ← (
    if nameOnly.isEmpty then
      match mode with
      | .manualNum => .error .valueError
      | _ => .ok (FmtMode.autoNum, auto, auto + 1)
    else if nameOnly.all (·.isDigit) then
      match mode with
      | .autoNum => .error .valueError
      | _ => .ok (FmtMode.manualNum,
          nameOnly.foldl (fun acc c => acc * 10 + (c.toNat - 48)) 0, auto)
    else .error .keyError : Except PyErr (FmtMode × Nat × Nat))
  let arg ← (match args.get? pick.2.1 with
    | some a => .ok a
    | none => .error .indexError : Except PyErr (List Char))
  let arg ← (match conv with
    | none => .ok arg
    | some c => pyConvApply c arg : Except PyErr (List Char))
  let out ← (match specPart with
    | none => .ok arg
    | some sp => pyStrFormat sp arg : Except PyErr (List Char))
  .ok (out, pick.1, pick.2.2)

/-- The scanner of Python's `str.format` over a template: literal text is
copied, `\x7b\x7b`/`\x7d\x7d` are brace escapes, a lone `\x7d` raises, and a
`\x7b` opens a replacement field.  Every step consumes at least one character
(`splitField_len`), so `fuel ≥ length + 1` never runs out; fuel keeps the
recursion structural so that proofs can evaluate it. -/
def pyFormatGo (args : List (List Char)) :
    Nat → FmtMode → Nat → List Char → Except PyErr (List Char)
  | 0, _, _, s => .ok s
  | _ + 1, _, _, [] => .ok []
  | fuel + 1, mode, auto, c :: rest =>
    if c = '\x7d' then
      match rest with
      | d :: rest2 =>
        if d = '\x7d' then (fun t => '\x7d' :: t) <$> pyFormatGo args fuel mode auto rest2
        else .error .valueError
      | [] => .error .valueError
    else if c = '\x7b' then
      match rest with
      | d :: rest2 =>
        if d = '\x7b' then (fun t => '\x7b' :: t) <$> pyFormatGo args fuel mode auto rest2
        else
          match splitField 0 (d :: rest2) with
          | none => .error .valueError
          | some (field, rest') =>
            match pyFormatField args mode auto field with
            | .error e => .error e
            | .ok r =>
              match pyFormatGo args fuel r.2.1 r.2.2 rest' with
              | .error e => .error e
              | .ok tail => .ok (r.1 ++ tail)
      | [] => .error .valueError
    else (fun t => c :: t) <$> pyFormatGo args fuel mode auto rest

/-- `template.format(*args)` of Python for string arguments. -/
def pyFormat (template : List Char) (args : List (List Char)) : Except PyErr (List Char) :=
  pyFormatGo args (template.length + 1) .unset 0 template

/-! ### `_snprintf` itself -/

/-- `'0x\x7b:x\x7d'.format(x)` used for the hex-rendered argument dump. -/
def hexArgRepr (x : Nat) : List Char := '0' :: 'x' :: natHex x

/-- `sep.join(strs)` of Python. -/
def joinSep (sep : List Char) : List (List Char) → List Char
  | [] => []
  | [x] => x
  | x :: xs => x ++ sep ++ joinSep sep xs

/-- Group 1 of the source's `cfmt_nums` regex applied to a conversion token:
the flags/width/precision part between the `%` and the conversion character. -/
def fmtNumOf (tok : List Char) : List Char :=
  match tok with
  | '%' :: rest =>
    (takeFlags 5 rest).1 ++ (takeWidth (takeFlags 5 rest).2).1
      ++ (takePrec (takeWidth (takeFlags 5 rest).2).2).1
  | _ => []

/-- One iteration of `_snprintf`'s formatting loop on a conversion token and
its argument (these `.format` calls are *outside* the `try`, so errors
propagate). -/
def snprintfTok (tok : List Char) (arg : Nat) : Except PyErr (List Char) :=
  let fmt_num := fmtNumOf tok
  if tok = ['%', '%'] then .ok ['%']
  else match tok.getLast? with
    | some 'x' => pyIntFormat (fmt_num ++ ['x']) arg
    | some 'X' => pyIntFormat (fmt_num ++ ['X']) arg
    | some 'p' => pyIntFormat (fmt_num ++ ['x']) arg
    | some 'd' =>
      pyIntFormat fmt_num
        (if 2147483648 < arg then -((4294967296 : Int) - arg) else (arg : Int))
    | _ => pyIntFormat fmt_num arg

/-- The formatting loop of `_snprintf` (index `i` advances once per token, in
lockstep with the token list, so it is a zip). -/
def snprintfLoop : List (List Char) → List Nat → Except PyErr (List (List Char))
  | [], _ => .ok []
  | _ :: _, [] => .error .indexError
  | tok :: toks, a :: args => do
    let s ← snprintfTok tok a
    let rest ← snprintfLoop toks args
    .ok (s :: rest)

/-- The source function `QualcommParser._snprintf`. -/
def snprintf (fmtstr : List Char) (fmtargs : List Nat) : Except PyErr (List Char) :=
  let scan := cfmtScan fmtstr
  if fmtargs.length < scan.1.length then .ok fmtstr
  else
    match snprintfLoop scan.1 fmtargs with
    | .error e => .error e
    | .ok formatted =>
      match pyFormat scan.2 formatted with
      | .ok s => .ok s
      | .error _ =>
        if 0 < fmtargs.length then
          .ok (fmtstr ++ (", args=".data) ++ joinSep (", ".data) (fmtargs.map hexArgRepr))
        else .ok fmtstr

/-! ### Data model of the dispatcher -/

/-- A row of the legacy QSR hash store (`QsrContent` namedtuple). -/
structure QsrContent where
  file : List Char
  string : List Char
  deriving DecidableEq, Repr

/-- A row of the QDB4 content store (`Qsr4Content` namedtuple). -/
structure Qsr4Content where
  subsys_mask : Int
  ssid : Int
  line : Int
  file : List Char
  string : List Char
  deriving DecidableEq, Repr

/-- A row of the QDB4 mtrace store (`Qsr4MtraceContent` namedtuple). -/
structure MtraceContent where
  line : List Char
  level : List Char
  client : List Char
  file : List Char
  tag : List Char
  string : List Char
  deriving DecidableEq, Repr

/-- Modelled from the spec: one GSMTAP v2 + Osmocore-log record as produced by
the missing `util.create_gsmtap_header`/`util.create_osmocore_logging_header`
(spec section 4.4).  The record keeps the fields handed to the builders plus
the appended text payload; the byte layout itself is irrelevant to the claims. -/
structure OsmoLogMsg where
  ts : Option TsVal := none
  level : Nat := 0
  process_name : List Char := []
  subsys_name : List Char := []
  filename : List Char := []
  line_number : Int := 0
  content : List Char := []
  deriving DecidableEq, Repr

/-- The result dictionary a decoder returns (absent dict keys are `none`/`[]`). -/
structure ParseResult where
  cp : List OsmoLogMsg := []
  stdout : Option (List Char) := none
  ts : Option TsVal := none
  id_range : Option (List (Nat × Nat)) := none
  startId : Option Nat := none
  endId : Option Nat := none
  levels : List (Nat × Nat) := []
  radio_id : Option Int := none
  deriving DecidableEq, Repr

instance {ε α : Type} [DecidableEq ε] [DecidableEq α] : DecidableEq (Except ε α) :=
  fun x y =>
    match x, y with
    | .ok a, .ok b =>
      if h : a = b then .isTrue (by rw [h]) else .isFalse (by simp [h])
    | .error e, .error f =>
      if h : e = f then .isTrue (by rw [h]) else .isFalse (by simp [h])
    | .ok _, .error _ => .isFalse (by simp)
    | .error _, .ok _ => .isFalse (by simp)

/-- Outcome of a decoder: the number of WARNING-level log lines it issued and
either a raised exception or the returned value (`none` = Python `None`). -/
structure DiagOut where
  warnings : Nat := 0
  out : Except PyErr (Option ParseResult) := .ok none
  deriving DecidableEq, Repr

/-- The `args` bag handed through the dispatcher (`'radio_id'`). -/
structure DiagArgs where
  radio_id : Int
  deriving DecidableEq, Repr

/-- The 16-byte log header (`QcDiagLogHeader` namedtuple). -/
structure LogHdr where
  cmd_code : Nat
  reserved : Nat
  length1 : Nat
  length2 : Nat
  log_id : Nat
  timestamp : Nat
  deriving DecidableEq, Repr

/-- A per-log-id leaf decoder (the per-protocol decoders live outside this
repository snapshot, so the `process` table maps to opaque functions). -/
def LogDecoder : Type := LogHdr → List Nat → Option DiagArgs → DiagOut

/-- Payload variants of one event entry. -/
inductive EvPayload where
  | empty
  | one (a : Nat)
  | two (a b : Nat)
  | bin (bs : List Nat)
  deriving DecidableEq, Repr

/-- What an event decoder returns: a GSMTAP record or a (record, stdout) pair. -/
inductive EvRet where
  | single (g : OsmoLogMsg)
  | pair (g : OsmoLogMsg) (s : Option (List Char))
  deriving DecidableEq, Repr

/-- A per-event-id decoder (leaves outside the snapshot, kept opaque). -/
def EventDecoder : Type := TsVal → Nat → EvPayload → EvRet

/-- Association-list lookup (Python `dict` read). -/
def assocLookup {α : Type} (m : List (Int × α)) (k : Int) : Option α :=
  match m with
  | [] => none
  | (k', v) :: rest => if k = k' then some v else assocLookup rest k

/-- Association-list overwrite-or-insert (Python `dict` write). -/
def assocSet {α : Type} (m : List (Int × α)) (k : Int) (v : α) : List (Int × α) :=
  match m with
  | [] => [(k, v)]
  | (k', v') :: rest => if k = k' then (k', v) :: rest else (k', v') :: assocSet rest k v

/-- The parser attributes that the dispatched decoders read (the hash stores
are read-only after load; the decoder tables come from the leaf parser
modules, which are outside the snapshot and therefore parameters). -/
structure Cfg where
  check_crc : Bool := true
  parse_msgs : Bool := false
  parse_events : Bool := false
  show_kpi : Bool := false
  qsr_content : List (Int × QsrContent) := []
  qsr4_content : List (Int × Qsr4Content) := []
  qsr4_mtrace_content : List (Int × MtraceContent) := []
  process : Nat → Option LogDecoder := fun _ => none
  no_process : Nat → Bool := fun _ => false
  process_event : Nat → Option EventDecoder := fun _ => none
  no_process_event : Nat → Bool := fun _ => false
  fallback_event : TsVal → Nat → EvPayload → OsmoLogMsg := fun _ _ _ => {}
  event_names : Nat → List Char := fun _ => []

/-- The parser state the dispatcher mutates (`log_id_range`). -/
structure ParserSt where
  log_id_range : List (Int × Nat) := []
  deriving Repr

/-! ### Sub-decoders -/

/-- `QualcommParser.parse_diag_version`. -/
def parse_diag_version (pkt : List Nat) : DiagOut :=
  if pkt.length < 47 then ⟨0, .ok none⟩
  else
    let field (off n : Nat) : List Char := bytesDecode ((pkt.drop off).take n)
    ⟨0, .ok (some { stdout := some ("Compile: ".data ++ field 1 11 ++ "/".data ++ field 12 8
      ++ ", Release: ".data ++ field 20 11 ++ "/".data ++ field 31 8
      ++ ", Chipset: ".data ++ field 39 8) })⟩

/-- `QualcommParser.parse_diag_log`: parse the 16-byte log header, warn when
the body length disagrees with `length2 - 12`, and hand the *entire* tail to
the per-log-id decoder. -/
def parse_diag_log (cfg : Cfg) (pkt : List Nat) (args : Option DiagArgs) : DiagOut :=
  if pkt.length < 16 then ⟨0, .ok none⟩
  else
    let hdr : LogHdr := ⟨leRead pkt 0 1, leRead pkt 1 1, leRead pkt 2 2,
      leRead pkt 4 2, leRead pkt 6 2, leRead pkt 8 8⟩
    let body := pkt.drop 16
    let w : Nat := if (body.length : Int) ≠ (hdr.length2 : Int) - 12 then 1 else 0
    match cfg.process hdr.log_id with
    | some f =>
      let r := f hdr body args
      ⟨w + r.warnings, r.out⟩
    | none => ⟨w, .ok none⟩

/-- `QualcommParser._stdout_for_failure_event`. -/
def stdout_for_failure_event (cfg : Cfg) (event_id : Nat) : Option (List Char) :=
  if !cfg.show_kpi then none
  else
    let name := cfg.event_names event_id
    if containsSub "FAILURE".data name then some ("RRC event: ".data ++ name) else none

/-- The `append_event_result` helper inside `parse_diag_event`. -/
def appendEventResult (ret : EvRet) (pkts : List OsmoLogMsg) (lines : List (List Char)) :
    List OsmoLogMsg × List (List Char) :=
  match ret with
  | .single g => (pkts ++ [g], lines)
  | .pair g s =>
    match s with
    | some l => if l.isEmpty then (pkts ++ [g], lines) else (pkts ++ [g], lines ++ [l])
    | none => (pkts ++ [g], lines)

/-- Handle one event entry once its timestamp and payload have been read. -/
def eventEntry (cfg : Cfg) (ts : TsVal) (event_id : Nat) (p : EvPayload)
    (pkts : List OsmoLogMsg) (lines : List (List Char)) :
    List OsmoLogMsg × List (List Char) :=
  match cfg.process_event event_id with
  | some f => appendEventResult (f ts event_id p) pkts lines
  | none =>
    if cfg.no_process_event event_id then (pkts, lines)
    else
      let pkts := pkts ++ [cfg.fallback_event ts event_id p]
      match stdout_for_failure_event cfg event_id with
      | some l => (pkts, lines ++ [l])
      | none => (pkts, lines)

/-- Read the payload of one event entry at `pos'` and dispatch it; returns the
position after the payload together with the updated accumulators. -/
def eventPayloadStep (cfg : Cfg) (pkt : List Nat) (pos' : Nat) (ts' : TsVal)
    (event_id payload_len : Nat) (pkts : List OsmoLogMsg) (lines : List (List Char)) :
    Except PyErr (Nat × (List OsmoLogMsg × List (List Char))) :=
  if payload_len == 0 then
    .ok (pos', eventEntry cfg ts' event_id .empty pkts lines)
  else if payload_len == 1 then
    match pyIndex pkt pos' with
    | .error e => .error e
    | .ok arg1 => .ok (pos' + 1, eventEntry cfg ts' event_id (.one arg1) pkts lines)
  else if payload_len == 2 then
    match pyIndex pkt pos' with
    | .error e => .error e
    | .ok arg1 =>
      match pyIndex pkt (pos' + 1) with
      | .error e => .error e
      | .ok arg2 => .ok (pos' + 2, eventEntry cfg ts' event_id (.two arg1 arg2) pkts lines)
  else
    match pyIndex pkt pos' with
    | .error e => .error e
    | .ok bin_len =>
      let arg_bin := (pkt.drop (pos' + 1)).take bin_len
      .ok (pos' + 1 + bin_len, eventEntry cfg ts' event_id (.bin arg_bin) pkts lines)

theorem eventPayloadStep_pos {cfg pkt pos' ts' event_id payload_len pkts lines pa}
    (h : eventPayloadStep cfg pkt pos' ts' event_id payload_len pkts lines = .ok pa) :
    pos' ≤ pa.1 := by
  unfold eventPayloadStep at h
  split at h
  · cases h; exact le_refl _
  · split at h
    · split at h
      · exact absurd h (by simp)
      · cases h; exact Nat.le_succ _
    · split at h
      · split at h
        · exact absurd h (by simp)
        · split at h
          · exact absurd h (by simp)
          · cases h; exact Nat.le_add_right _ 2
      · split at h
        · exact absurd h (by simp)
        · cases h
          exact le_trans (Nat.le_add_right _ 1) (Nat.le_add_right _ _)

/-- The entry loop of `parse_diag_event` (`while pos < len(pkt)`). -/
def eventLoop (cfg : Cfg) (pkt : List Nat) (pos : Nat) (ts : TsVal)
    (pkts : List OsmoLogMsg) (lines : List (List Char)) :
    Except PyErr (List OsmoLogMsg × List (List Char) × TsVal) :=
  if h : pos < pkt.length then
    match unpackSlice pkt pos 2 with
    | .error e => .error e
    | .ok _ =>
      let eid := leRead pkt pos 2
      let event_id := eid % 4096
      let payload_len := eid / 8192 % 4
      let ts_trunc := eid / 32768 % 2
      if ts_trunc == 0 then
        match unpackSlice pkt (pos + 2) 8 with
        | .error e => .error e
        | .ok _ =>
          let ts' := parse_qxdm_ts (leRead pkt (pos + 2) 8)
          match h2 : eventPayloadStep cfg pkt (pos + 10) ts' event_id payload_len pkts lines with
          | .error e => .error e
          | .ok pa => eventLoop cfg pkt pa.1 ts' pa.2.1 pa.2.2
      else
        let ts' := TsVal.wallclock
        match h2 : eventPayloadStep cfg pkt (pos + 4) ts' event_id payload_len pkts lines with
        | .error e => .error e
        | .ok pa => eventLoop cfg pkt pa.1 ts' pa.2.1 pa.2.2
  else .ok (pkts, lines, ts)
  termination_by pkt.length - pos
  decreasing_by
  · have := eventPayloadStep_pos h2; omega
  · have := eventPayloadStep_pos h2; omega

/-- `QualcommParser.parse_diag_event`. -/
def parse_diag_event (cfg : Cfg) (pkt : List Nat) : DiagOut :=
  match unpackSlice pkt 0 3 with
  | .error e => ⟨0, .error e⟩
  | .ok _ =>
    match eventLoop cfg pkt 3 .wallclock [] [] with
    | .error e => ⟨0, .error e⟩
    | .ok (pkts, lines, ts) =>
      let res : ParseResult :=
        { cp := pkts, ts := some ts,
          stdout := if lines.isEmpty then none else some (joinSep ['\n'] lines) }
      ⟨0, .ok (some res)⟩

/-- The per-range loop of the `RETRIEVE_ID_RANGES` reply. -/
def logConfigRanges (ranges : List Nat) (n : Nat) (st : ParserSt) (acc : List Char) :
    ParserSt × List Char :=
  (List.range n).foldl
    (fun p i =>
      let val := leRead ranges (4 * i) 4
      if 0 < val then
        (⟨assocSet p.1.log_id_range (i : Int) val⟩,
         p.2 ++ natDigits i ++ ": ".data ++ natDigits val ++ ", ".data)
      else p)
    (st, acc)

/-- `QualcommParser.parse_diag_log_config`. -/
def parse_diag_log_config (st : ParserSt) (pkt : List Nat) : ParserSt × DiagOut :=
  if pkt.length < 8 then (st, ⟨0, .ok none⟩)
  else
    let cmd_id := leRead pkt 4 4
    let payload := pkt.drop 8
    let base := "Log Config: ".data
    if cmd_id = LOG_CONFIG_DISABLE_OP then
      (st, ⟨0, .ok (some { stdout := some (base ++ "Disable, Extra: ".data ++ hexlify payload) })⟩)
    else if cmd_id = LOG_CONFIG_RETRIEVE_ID_RANGES_OP then
      let ranges := payload.drop 4
      let num_ranges := ranges.length / 4
      let r := logConfigRanges ranges num_ranges st (base ++ "Retrieve ID ranges: ".data)
      (r.1, ⟨0, .ok (some { stdout := some r.2 })⟩)
    else if cmd_id = LOG_CONFIG_RETRIEVE_VALID_MASK_OP then
      (st, ⟨0, .ok (some { stdout := some (base ++ "Retrieve valid mask, Extra: ".data ++ hexlify payload) })⟩)
    else if cmd_id = LOG_CONFIG_SET_MASK_OP then
      (st, ⟨0, .ok (some { stdout := some (base ++ "Set mask, Extra: ".data ++ hexlify payload) })⟩)
    else if cmd_id = LOG_CONFIG_GET_LOGMASK_OP then
      (st, ⟨0, .ok (some { stdout := some (base ++ "Get mask, Extra: ".data ++ hexlify payload) })⟩)
    else
      (st, ⟨0, .ok (some { stdout := some base })⟩)

/-- `bytes.rstrip(b'\0')`. -/
def rstripZeros (bs : List Nat) : List Nat :=
  (bs.reverse.dropWhile (· % 256 == 0)).reverse

/-- `bytes.rsplit(b'\0', maxsplit=1)`: split at the last NUL, if any. -/
def rsplitZero (bs : List Nat) : List Nat × Option (List Nat) :=
  let r := bs.reverse
  let pre := r.takeWhile (fun b => b % 256 != 0)
  let rest := r.dropWhile (fun b => b % 256 != 0)
  match rest with
  | [] => (bs, none)
  | _ :: before => (before.reverse, some pre.reverse)

/-- `QualcommParser.parse_diag_ext_msg` (no length guard in the source: short
packets raise `struct.error` from `struct.unpack`). -/
def parse_diag_ext_msg (pkt : List Nat) : DiagOut :=
  match unpackSlice pkt 0 20 with
  | .error e => ⟨0, .error e⟩
  | .ok _ =>
    let num_args := leRead pkt 2 1
    let pkt_ts := parse_qxdm_ts (leRead pkt 4 8)
    let line_no := leRead pkt 12 2
    let subsys_id := leRead pkt 14 2
    match unpackSlice pkt 20 (4 * num_args) with
    | .error e => ⟨0, .error e⟩
    | .ok _ =>
      let pkt_args := (List.range num_args).map (fun i => leRead pkt (20 + 4 * i) 4)
      let pkt_body := rstripZeros (pkt.drop (20 + 4 * num_args))
      let sp := rsplitZero pkt_body
      let log_content := bytesDecode sp.1
      let src_fname := (sp.2.getD []).map (fun b => b)
      match snprintf log_content pkt_args with
      | .error e => ⟨0, .error e⟩
      | .ok formatted =>
        let msg : OsmoLogMsg :=
          { ts := some pkt_ts, subsys_name := natDigits subsys_id,
            filename := bytesDecode src_fname, line_number := (line_no : Int),
            content := formatted }
        ⟨0, .ok (some { cp := [msg], ts := some pkt_ts })⟩

/-- `QualcommParser.parse_diag_ext_build_id`. -/
def parse_diag_ext_build_id (pkt : List Nat) : DiagOut :=
  if pkt.length < 12 then ⟨0, .ok none⟩
  else
    let body := (pkt.drop 12).take (pkt.length - 2 - 12)
    ⟨0, .ok (some { stdout := some ("Build ID: ".data ++ bytesDecode body) })⟩

/-- `'\x7b:#x\x7d'`-style rendering used by the message-level reply. -/
def hashHexRepr (n : Nat) : List Char := '0' :: 'x' :: natHex n

/-- `QualcommParser.parse_diag_ext_msg_config`. -/
def parse_diag_ext_msg_config (pkt : List Nat) : DiagOut :=
  if pkt.length < 2 then ⟨0, .ok none⟩
  else if leRead pkt 1 1 == 0x01 then
    if pkt.length < 8 then ⟨0, .ok none⟩
    else
      let num_ranges := leRead pkt 4 2
      if pkt.length < 8 + 4 * num_ranges then ⟨0, .ok none⟩
      else
        let ids := (List.range num_ranges).map
          (fun i => (leRead pkt (8 + 4 * i) 2, leRead pkt (8 + 4 * i + 2) 2))
        let stdout := ids.foldl
          (fun acc r => acc ++ natDigits r.1 ++ "-".data ++ natDigits r.2 ++ ", ".data)
          "Extended message range: ".data
        ⟨0, .ok (some { stdout := some stdout, id_range := some ids })⟩
  else if leRead pkt 1 1 == 0x02 then
    if pkt.length < 8 then ⟨0, .ok none⟩
    else
      let start_id := leRead pkt 2 2
      let end_id := leRead pkt 4 2
      let count : Int := (end_id : Int) - (start_id : Int) + 1
      if (pkt.length : Int) < 8 + 4 * count then ⟨0, .ok none⟩
      else
        let levels := (List.range count.toNat).map
          (fun i => (start_id + i, leRead pkt (8 + 4 * i) 4))
        let stdout := levels.foldl
          (fun acc r => acc ++ "Message ID ".data ++ natDigits r.1 ++ ": ".data
            ++ hashHexRepr r.2 ++ ['\n'])
          ("Extended message level: ".data ++ ['\n'])
        let res : ParseResult :=
          { stdout := some stdout, startId := some start_id,
            endId := some end_id, levels := levels }
        ⟨0, .ok (some res)⟩
  else ⟨0, .ok none⟩

/-- `QualcommParser.parse_diag_ext_msg_terse` (a no-op). -/
def parse_diag_ext_msg_terse (_pkt : List Nat) : DiagOut := ⟨0, .ok none⟩

/-- Python `repr` of a list of ints, as an f-string renders it. -/
def pyIntListRepr (xs : List Nat) : List Char :=
  '[' :: joinSep ", ".data (xs.map natDigits) ++ [']']

/-- `QualcommParser.parse_diag_qsr_ext_msg_terse`: resolve the 32-bit hash in
the legacy store; on a miss emit the synthetic `QSR Ext Msg Terse: …` text. -/
def parse_diag_qsr_ext_msg_terse (cfg : Cfg) (pkt : List Nat) : DiagOut :=
  match unpackSlice pkt 0 20 with
  | .error e => ⟨0, .error e⟩
  | .ok _ =>
    let num_args := leRead pkt 2 1
    let pkt_ts := parse_qxdm_ts (leRead pkt 4 8)
    let line_no := leRead pkt 12 2
    let subsys_id := leRead pkt 14 2
    match unpackSlice pkt 24 (4 * num_args) with
    | .error e => ⟨0, .error e⟩
    | .ok _ =>
      match unpackSlice pkt 20 4 with
      | .error e => ⟨0, .error e⟩
      | .ok _ =>
        let pkt_args := (List.range num_args).map (fun i => leRead pkt (24 + 4 * i) 4)
        let msg_hash := leRead pkt 20 4
        match assocLookup cfg.qsr_content (msg_hash : Int) with
        | some q =>
          match snprintf q.string pkt_args with
          | .error e => ⟨0, .error e⟩
          | .ok formatted =>
            let msg : OsmoLogMsg :=
              { ts := some pkt_ts, subsys_name := natDigits subsys_id,
                filename := q.file, line_number := (line_no : Int), content := formatted }
            ⟨0, .ok (some { cp := [msg], ts := some pkt_ts })⟩
        | none =>
          let formatted := "QSR Ext Msg Terse: ".data ++ natDigits msg_hash ++ ", ".data
            ++ pyIntListRepr pkt_args
          let msg : OsmoLogMsg :=
            { ts := some pkt_ts, subsys_name := natDigits subsys_id,
              filename := [], line_number := (line_no : Int), content := formatted }
          ⟨0, .ok (some { cp := [msg], ts := some pkt_ts })⟩

/-- The argument vector of a QSR4 terse message for a given element size
(`arg_size` 3 packs each value in three little-endian bytes). -/
def qsr4Args (extra : List Nat) (arg_num arg_size : Nat) : List Nat :=
  if arg_size == 1 then extra.map (· % 256)
  else if arg_size == 2 then (List.range arg_num).map (fun i => leRead extra (2 * i) 2)
  else if arg_size == 3 then (List.range arg_num).map (fun i => leRead extra (3 * i) 3)
  else (List.range arg_num).map (fun i => leRead extra (4 * i) 4)

/-- `QualcommParser.parse_diag_qsr4_ext_msg`: resolve the 32-bit hash in the
QDB4 store; note that a hash miss falls off the end of the function, i.e.
returns `None`. -/
def parse_diag_qsr4_ext_msg (cfg : Cfg) (pkt : List Nat) : DiagOut :=
  if pkt.length < 18 then ⟨0, .ok none⟩
  else
    let num_size_args := leRead pkt 2 1
    let pkt_ts := parse_qxdm_ts (leRead pkt 4 8)
    let msg_hash := leRead pkt 12 4
    let extra := pkt.drop 18
    -- bitstring runs with `lsb0`: slice [0:4] is the low nibble, [4:8] the high
    let arg_num := num_size_args % 16
    let arg_size := num_size_args / 16
    if extra.length ≠ arg_num * arg_size then ⟨0, .ok none⟩
    else if 5 ≤ arg_size then ⟨0, .ok none⟩
    else
      let args := if arg_size == 0 then [] else qsr4Args extra arg_num arg_size
      match assocLookup cfg.qsr4_content (msg_hash : Int) with
      | some q =>
        match snprintf q.string args with
        | .error e => ⟨0, .error e⟩
        | .ok formatted =>
          let msg : OsmoLogMsg :=
            { ts := some pkt_ts,
              subsys_name := intStr q.ssid ++ "/".data
                ++ (if q.subsys_mask < 0 then '-' :: natHex q.subsys_mask.natAbs
                    else natHex q.subsys_mask.natAbs),
              filename := q.file, line_number := q.line, content := formatted }
          ⟨0, .ok (some { cp := [msg], ts := some pkt_ts })⟩
      | none => ⟨0, .ok none⟩

/-- `QualcommParser.parse_diag_qsh_trace_msg`: the mtrace variant.  When the
hash is known, the source *asserts* `len(extra)//4 == num_args` — a failing
assertion raises. -/
def parse_diag_qsh_trace_msg (cfg : Cfg) (pkt : List Nat) : DiagOut :=
  if pkt.length < 16 then ⟨0, .ok none⟩
  else
    let arg_count := leRead pkt 4 1
    let msg_hash := leRead pkt 12 4
    let num_args : Int := (arg_count : Int) - 0x13
    match assocLookup cfg.qsr4_mtrace_content (msg_hash : Int) with
    | some q =>
      let extra := pkt.drop 16
      if ((extra.length / 4 : Nat) : Int) ≠ num_args then ⟨0, .error .assertError⟩
      else
        match (if 0 < num_args then
            (match unpackSlice extra 0 (4 * num_args.toNat) with
              | .error e => .error e
              | .ok _ =>
                if extra.length ≠ 4 * num_args.toNat then .error .structError
                else .ok ((List.range num_args.toNat).map (fun i => leRead extra (4 * i) 4)))
          else .ok [] : Except PyErr (List Nat)) with
        | .error e => ⟨0, .error e⟩
        | .ok args =>
          if (q.line.elem '|') then
            let msg : OsmoLogMsg :=
              { level := 0, process_name := q.tag, subsys_name := q.client,
                filename := q.file, line_number := 0, content := q.line }
            ⟨0, .ok (some { cp := [msg] })⟩
          else
            match pyInt q.line with
            | .error e => ⟨0, .error e⟩
            | .ok line_num =>
              match pyInt q.level with
              | .error e => ⟨0, .error e⟩
              | .ok level =>
                match snprintf q.string args with
                | .error e => ⟨0, .error e⟩
                | .ok formatted =>
                  let msg : OsmoLogMsg :=
                    { level := level.toNat, process_name := q.tag, subsys_name := q.client,
                      filename := q.file, line_number := line_num, content := formatted }
                  ⟨0, .ok (some { cp := [msg] })⟩
    | none => ⟨0, .ok none⟩

/-- `'\x7b:#06x\x7d'.format(n)`: `0x` plus the hex digits zero-padded to a
total width of six. -/
def hex06Repr (n : Nat) : List Char :=
  let h := natHex n
  '0' :: 'x' :: (List.replicate (4 - h.length) '0' ++ h)

/-- `QualcommParser.parse_diag_secure_log`. -/
def parse_diag_secure_log (pkt : List Nat) : DiagOut :=
  if pkt.length < 24 then ⟨1, .ok none⟩
  else
    let unk1 := leRead pkt 1 1
    let unk2 := leRead pkt 2 2
    let unk3 := leRead pkt 4 2
    let unk4 := leRead pkt 6 2
    let unk5 := leRead pkt 8 1
    let unk6 := leRead pkt 9 1
    let unk7 := leRead pkt 10 2
    let seqnr := leRead pkt 12 4
    let unk8 := leRead pkt 16 4
    let item_len := leRead pkt 20 2
    let log_id := leRead pkt 22 2
    let pkt_body := pkt.drop 24
    let w : Nat := if pkt_body.length + 4 ≠ item_len then 1 else 0
    let stdout := "Secure log: Sequence number ".data ++ natDigits seqnr
      ++ ", Log item ID ".data ++ hex06Repr log_id ++ ", ".data
      ++ natDigits unk1 ++ " ".data ++ natDigits unk2 ++ " ".data ++ natDigits unk3
      ++ " ".data ++ natDigits unk4 ++ " ".data ++ natDigits unk5 ++ " ".data
      ++ natDigits unk6 ++ " ".data ++ natDigits unk7 ++ " ".data ++ natDigits unk8
      ++ ['\n'] ++ "Encrypted body: ".data ++ hexlify pkt_body
    ⟨w, .ok (some { stdout := some stdout })⟩

/-! ### The command dispatcher `parse_diag`
`parse_diag_multisim` re-enters `parse_diag`, so both are written over an
explicit re-entry callback and tied together by a structural recursion on a
fuel argument; every re-entry strips the 8-byte multi-radio envelope, so any
fuel larger than the recursion depth (bounded by the packet length) yields the
same value, and the claims hold for every fuel. -/

/-- The re-entry signature of `parse_diag`. -/
def ParseDiagFn : Type :=
  ParserSt → List Nat → Bool → Bool → Option DiagArgs → ParserSt × DiagOut

/-- `QualcommParser.parse_diag_multisim`: strip the 8-byte envelope, re-enter
`parse_diag` without HDLC or CRC handling, and overwrite `radio_id` on a dict
result with the sanitized subscription id. -/
def parse_diag_multisimGo (recur : ParseDiagFn) (st : ParserSt) (pkt : List Nat) :
    ParserSt × DiagOut :=
  if pkt.length < 8 then (st, ⟨0, .ok none⟩)
  else
    let radio_raw := leRead pkt 4 4
    let rid := sanitize_radio_id (radio_raw : Int)
    let pkt_body := pkt.drop 8
    let r := recur st pkt_body false false (some ⟨rid⟩)
    match r.2.out with
    | .ok (some d) => (r.1, ⟨r.2.warnings, .ok (some { d with radio_id := some rid })⟩)
    | _ => r

/-- The opcode dispatch chain of `parse_diag` (source lines 528-557). -/
def parse_diag_dispatchGo (recur : ParseDiagFn) (cfg : Cfg) (st : ParserSt)
    (pkt : List Nat) (args : Option DiagArgs) : ParserSt × DiagOut :=
  match pkt with
  | [] => (st, ⟨0, .error .indexError⟩)
  | b :: _ =>
    let op := b % 256
    if op = DIAG_VERNO_F then (st, parse_diag_version pkt)
    else if op = DIAG_LOG_F then (st, parse_diag_log cfg pkt args)
    else if op = DIAG_EVENT_REPORT_F ∧ cfg.parse_events then (st, parse_diag_event cfg pkt)
    else if op = DIAG_LOG_CONFIG_F then parse_diag_log_config st pkt
    else if op = DIAG_EXT_MSG_F ∧ cfg.parse_msgs then (st, parse_diag_ext_msg pkt)
    else if op = DIAG_EXT_BUILD_ID_F then (st, parse_diag_ext_build_id pkt)
    else if op = DIAG_EXT_MSG_CONFIG_F then (st, parse_diag_ext_msg_config pkt)
    else if op = DIAG_EXT_MSG_TERSE_F ∧ cfg.parse_msgs then (st, parse_diag_ext_msg_terse pkt)
    else if op = DIAG_QSR_EXT_MSG_TERSE_F ∧ cfg.parse_msgs then
      (st, parse_diag_qsr_ext_msg_terse cfg pkt)
    else if op = DIAG_MULTI_RADIO_CMD_F then parse_diag_multisimGo recur st pkt
    else if op = DIAG_QSR4_EXT_MSG_TERSE_F ∧ cfg.parse_msgs then
      (st, parse_diag_qsr4_ext_msg cfg pkt)
    else if op = DIAG_QSH_TRACE_PAYLOAD_F ∧ cfg.parse_msgs then
      (st, parse_diag_qsh_trace_msg cfg pkt)
    else if op = DIAG_SECURE_LOG_F then (st, parse_diag_secure_log pkt)
    else (st, ⟨0, .ok none⟩)

/-- The body of `QualcommParser.parse_diag` given its own re-entry: length
gate, optional HDLC unwrap, optional CRC check (a mismatch logs one warning
and *continues*), then opcode dispatch. -/
def parse_diagGo (recur : ParseDiagFn) (cfg : Cfg) (st : ParserSt) (pkt : List Nat)
    (hdlc_encoded has_crc : Bool) (args : Option DiagArgs) : ParserSt × DiagOut :=
  if pkt.length < 3 then (st, ⟨0, .ok none⟩)
  else
    let pkt1 := if hdlc_encoded then unwrap pkt else pkt
    if has_crc then
      let stripped := pkt1.take (pkt1.length - 2)
      let crc := dm_crc16 stripped
      match pkt1.reverse with
      | b1 :: b2 :: _ =>
        let crc_pkt := (b1 % 256) * 256 + b2 % 256
        let w : Nat := if cfg.check_crc && decide (crc ≠ crc_pkt) then 1 else 0
        let r := parse_diag_dispatchGo recur cfg st stripped args
        (r.1, ⟨w + r.2.warnings, r.2.out⟩)
      | _ => (st, ⟨0, .error .indexError⟩)
    else parse_diag_dispatchGo recur cfg st pkt1 args

/-- `QualcommParser.parse_diag`, tied by structural fuel recursion. -/
def parse_diagF : Nat → Cfg → ParserSt → List Nat → Bool → Bool → Option DiagArgs →
    ParserSt × DiagOut
  | 0, _, st, _, _, _, _ => (st, ⟨0, .error .fuelError⟩)
  | fuel + 1, cfg, st, pkt, hdlc_encoded, has_crc, args =>
    parse_diagGo (fun st' pkt' h c a => parse_diagF fuel cfg st' pkt' h c a)
      cfg st pkt hdlc_encoded has_crc args

/-- `parse_diag_multisim` at a given fuel. -/
def parse_diag_multisimF (fuel : Nat) (cfg : Cfg) (st : ParserSt) (pkt : List Nat) :
    ParserSt × DiagOut :=
  parse_diag_multisimGo (fun st' pkt' h c a => parse_diagF fuel cfg st' pkt' h c a) st pkt

/-- The dispatch chain at a given fuel. -/
def parse_diag_dispatchF (fuel : Nat) (cfg : Cfg) (st : ParserSt) (pkt : List Nat)
    (args : Option DiagArgs) : ParserSt × DiagOut :=
  parse_diag_dispatchGo (fun st' pkt' h c a => parse_diagF fuel cfg st' pkt' h c a)
    cfg st pkt args

/-! ### The legacy hash-file loader `load_qsr_hash` and its `set_parameter` caller -/

/-- A `\w` character (ASCII part). -/
def isWordChar (c : Char) : Bool := c.isAlphanum || c == '_'

/-- A `[\w\-=.]` character. -/
def isValChar (c : Char) : Bool := isWordChar c || c == '-' || c == '=' || c == '.'

/-- `re.match` of the loader's tag regex `\<(\w*)\>\s*([\w\-=.]*)\s*\</(\w*)\>`
(a prefix match; trailing characters are allowed). -/
def tagOneline (l : List Char) : Option (List Char × List Char × List Char) :=
  match l with
  | '<' :: r1 =>
    let g0 := r1.takeWhile isWordChar
    match r1.dropWhile isWordChar with
    | '>' :: r3 =>
      let r4 := r3.dropWhile pySpace
      let g1 := r4.takeWhile isValChar
      let r6 := (r4.dropWhile isValChar).dropWhile pySpace
      match r6 with
      | '<' :: '/' :: r7 =>
        let g2 := r7.takeWhile isWordChar
        match r7.dropWhile isWordChar with
        | '>' :: _ => some (g0, g1, g2)
        | _ => none
      | _ => none
    | _ => none
  | _ => none

/-- `str.split(sep, maxsplit)` for a single-character separator. -/
def pySplitCh (ch : Char) : Nat → List Char → List (List Char)
  | 0, s => [s]
  | maxsplit + 1, s =>
    match (splitAtFirst ch s).2 with
    | none => [s]
    | some rest => (splitAtFirst ch s).1 :: pySplitCh ch maxsplit rest

/-- The in-memory legacy hash store `self.qsr_content`. -/
abbrev QsrMap : Type := List (Int × QsrContent)

/-- Process one line of a legacy QSR hash file against the current store.  A
raised exception carries the store as already mutated (the Python `dict` is a
field of the parser, so entries inserted before the failure survive it). -/
def load_qsr_line (m : QsrMap) (raw : List Char) : Except (PyErr × QsrMap) QsrMap :=
  let l := pyStrip raw
  match l with
  | [] => .error (.indexError, m)
  | c :: _ =>
    if c = '#' then .ok m
    else
      match tagOneline l with
      | some (g0, g1, g2) =>
        if g0 = "CRC".data ∧ g2 = "CRC".data then
          match pyInt g1 with
          | .ok _ => .ok m
          | .error _ => .error (.valueError, m)
        else .ok m
      | none =>
        match pySplitCh ':' 3 l with
        | [p0, p1, p2] =>
          match pyInt p0 with
          | .error _ => .error (.valueError, m)
          | .ok h0 => .ok (assocSet m h0 ⟨p1, p2⟩)
        | _ => .error (.typeError, m)

/-- The line loop of `load_qsr_hash`. -/
def load_qsr_lines : List (List Char) → QsrMap → Except (PyErr × QsrMap) QsrMap
  | [], m => .ok m
  | l :: ls, m =>
    match load_qsr_line m l with
    | .ok m' => load_qsr_lines ls m'
    | .error e => .error e

/-- `QualcommParser.load_qsr_hash` over the decoded lines of the file: `true`
iff the store is non-empty afterwards; an exception leaves the partial store. -/
def load_qsr_hash (m0 : QsrMap) (lines : List (List Char)) :
    Except (PyErr × QsrMap) (Bool × QsrMap) :=
  match load_qsr_lines lines m0 with
  | .error e => .error e
  | .ok m => .ok (decide (0 < m.length), m)

/-- Result of the `qsr-hash` slice of `set_parameter`. -/
structure SetParamRes where
  parse_msgs : Bool
  qsr_hash_loaded : Bool
  qsr_content : QsrMap
  deriving DecidableEq, Repr

/-- The `qsr-hash` handling of `QualcommParser.set_parameter`: the load is
attempted, only `ValueError` is caught (logged at INFO), and a `true` result
enables extended-message parsing. -/
def set_parameter_qsr (lines : List (List Char)) (parse_msgs0 : Bool) (m0 : QsrMap) :
    Except PyErr SetParamRes :=
  match load_qsr_hash m0 lines with
  | .ok (b, m) => .ok ⟨parse_msgs0 || b, b, m⟩
  | .error (.valueError, m) => .ok ⟨parse_msgs0, false, m⟩
  | .error (e, _) => .error e

/-! ### The post-processor `postprocess_parse_result`
The stdout pipeline of source lines 901-983 is embedded as two per-line step
functions (one per emission path) over an explicit per-radio state, with every
`time.time()` call of one iteration modelled as that iteration's clock value.
A print of `'Radio N: <line>'` is modelled as emitting `(N, line)`. -/

/-- The per-radio KPI bookkeeping of the parser (`self._last_kpi_line` etc). -/
structure PPState where
  last_kpi_line : Int → Option (List Char)
  lte_rrc_state : Int → Option (List Char)
  last_scell_line : Int → Option (List Char)
  last_scell_emit_time : Int → ℚ
  last_dl_mcs_emit_time : Int → ℚ
  last_ul_mcs : Int → Option Nat
  last_tx_power_dbm : Int → Option Int
  last_ta_kpi : Int → Option Nat
  last_combined_kpi_emit_time : Int → ℚ

/-- The maps start empty; `dict.get(r, 0)` supplies the time defaults. -/
def initPP : PPState :=
  ⟨fun _ => none, fun _ => none, fun _ => none, fun _ => 0, fun _ => 0,
   fun _ => none, fun _ => none, fun _ => none, fun _ => 0⟩

/-- Pointwise map update. -/
def fupd {α : Type} (f : Int → α) (k : Int) (v : α) : Int → α :=
  fun x => if x = k then v else f x

def rachPre : List Char := "LTE KPI RACH:".data
def taPre : List Char := "LTE KPI: TA=".data
def ulPre : List Char := "LTE KPI UL: MCS=".data
def txPre : List Char := "LTE KPI TX: est. TX power=".data
def combPre : List Char := "LTE KPI: UL MCS=".data
def scellEarfcnPre : List Char := "LTE Primary Cell: EARFCN:".data
def scellConnPre : List Char := "LTE Primary Cell (Connected):".data
def rrcPre : List Char := "LTE RRC State: ".data
def connectedStr : List Char := "RRC_CONNECTED".data
def ulTrigPre : List Char := "LTE KPI UL:".data
def txTrigPre : List Char := "LTE KPI TX:".data

/-- `re.match(PRE ++ '(\d+)', l)`: prefix plus at least one digit; the capture. -/
def parseNatPre (pre l : List Char) : Option Nat :=
  match dropPre pre l with
  | some r =>
    let ds := (takeDigits r).1
    if ds.isEmpty then none
    else some (ds.foldl (fun acc c => acc * 10 + (c.toNat - 48)) 0)
  | none => none

/-- `re.match(r'LTE KPI UL: MCS=(\d+)', l)`. -/
def ulParse (l : List Char) : Option Nat := parseNatPre ulPre l

/-- `re.match(r'LTE KPI: TA=(\d+)', l)`. -/
def taParse (l : List Char) : Option Nat := parseNatPre taPre l

/-- `re.match(r'LTE KPI TX: est\. TX power=(-?\d+) dBm', l)`. -/
def txParse (l : List Char) : Option Int :=
  match dropPre txPre l with
  | some r =>
    let neg := match r with
      | '-' :: _ => true
      | _ => false
    let r1 := if neg then r.drop 1 else r
    let ds := (takeDigits r1).1
    let r2 := (takeDigits r1).2
    if ds.isEmpty then none
    else if leadsWith " dBm".data r2 then
      let v : Int := ds.foldl (fun acc c => acc * 10 + (c.toNat - 48)) 0
      some (if neg then -v else v)
    else none
  | none => none

/-- `re.match(r'(\d+(?:\.\d+)?)MHz BW MCS=', l)` as a test. -/
def mhzTest (l : List Char) : Bool :=
  let ds := (takeDigits l).1
  let r := (takeDigits l).2
  if ds.isEmpty then false
  else
    match r with
    | '.' :: rr =>
      let ds2 := (takeDigits rr).1
      let r2 := (takeDigits rr).2
      if ds2.isEmpty then false else leadsWith "MHz BW MCS=".data r2
    | _ => leadsWith "MHz BW MCS=".data r

/-- `re.match(r'LTE RRC State: (.+)', l)` with the captured group stripped. -/
def rrcParse (l : List Char) : Option (List Char) :=
  match dropPre rrcPre l with
  | some (c :: rest) => some (pyStrip (c :: rest))
  | _ => none

/-- `QualcommParser._maybe_emit_combined_kpi` (JSON emission elided; the
emitted serving-cell and combined lines are returned in order). -/
def maybeEmitCombined (s : PPState) (r : Int) (now : ℚ) : PPState × List (List Char) :=
  if now - s.last_combined_kpi_emit_time r < 1 then (s, [])
  else if (s.last_ul_mcs r).isNone && (s.last_tx_power_dbm r).isNone
      && (s.last_ta_kpi r).isNone then (s, [])
  else
    let resc :=
      if s.lte_rrc_state r == some connectedStr && (s.last_scell_line r).isSome
          && decide (2 < now - s.last_scell_emit_time r) then
        ({ s with last_scell_emit_time := fupd s.last_scell_emit_time r now },
         [(s.last_scell_line r).getD []])
      else (s, ([] : List (List Char)))
    let s := resc.1
    let ulStr := match s.last_ul_mcs r with
      | some v => natDigits v
      | none => "-".data
    let txStr := match s.last_tx_power_dbm r with
      | some v => intStr v
      | none => "-".data
    let taStr := match s.last_ta_kpi r with
      | some v => natDigits v
      | none => "-".data
    let line := combPre ++ ulStr ++ ", TX power=".data ++ txStr ++ " dBm, TA=".data ++ taStr
    ({ s with last_combined_kpi_emit_time := fupd s.last_combined_kpi_emit_time r now },
     resc.2 ++ [line])

/-- Source lines 958-983: serving-cell throttle, state capture, connected
re-emission, and the final record-and-print. -/
def stepPlainTail (kpi : Bool) (s : PPState) (r : Int) (now : ℚ) (l : List Char) :
    PPState × List (List Char) :=
  if kpi && leadsWith scellEarfcnPre l && decide (now - s.last_scell_emit_time r < 1) then
    ({ s with last_scell_line := fupd s.last_scell_line r (some l) }, [])
  else
    let s := if kpi && leadsWith scellEarfcnPre l then
        { s with last_scell_emit_time := fupd s.last_scell_emit_time r now }
      else s
    let s := match rrcParse l with
      | some st' => { s with lte_rrc_state := fupd s.lte_rrc_state r (some st') }
      | none => s
    let s :=
      if leadsWith scellEarfcnPre l || leadsWith scellConnPre l then
        let s' := { s with last_scell_line := fupd s.last_scell_line r (some l) }
        if !(kpi && leadsWith scellEarfcnPre l) then
          { s' with last_scell_emit_time := fupd s'.last_scell_emit_time r now }
        else s'
      else s
    let trigger := mhzTest l || leadsWith ulTrigPre l || leadsWith txTrigPre l
      || leadsWith combPre l
    let resc :=
      if kpi && (s.lte_rrc_state r == some connectedStr) && (s.last_scell_line r).isSome
          && trigger && decide (2 < now - s.last_scell_emit_time r) then
        ({ s with last_scell_emit_time := fupd s.last_scell_emit_time r now },
         [(s.last_scell_line r).getD []])
      else (s, ([] : List (List Char)))
    let s := resc.1
    let s := if kpi then { s with last_kpi_line := fupd s.last_kpi_line r (some l) } else s
    (s, resc.2 ++ [l])

/-- One stripped, non-empty stdout line through the plain (non-combined)
emission path of `postprocess_parse_result` (source lines 925-983). -/
def stepPlain (kpi : Bool) (s : PPState) (r : Int) (now : ℚ) (l : List Char) :
    PPState × List (List Char) :=
  if kpi && !(leadsWith rachPre l) && (s.last_kpi_line r == some l) then (s, [])
  else if kpi && !(s.lte_rrc_state r == some connectedStr)
      && (mhzTest l || leadsWith taPre l) then (s, [])
  else if kpi && mhzTest l && decide (now - s.last_dl_mcs_emit_time r < 2) then (s, [])
  else
    let s := if kpi && mhzTest l then
        { s with last_dl_mcs_emit_time := fupd s.last_dl_mcs_emit_time r now }
      else s
    if kpi && (s.lte_rrc_state r == some connectedStr) then
      match ulParse l with
      | some v => maybeEmitCombined { s with last_ul_mcs := fupd s.last_ul_mcs r (some v) } r now
      | none =>
        match txParse l with
        | some v =>
          maybeEmitCombined { s with last_tx_power_dbm := fupd s.last_tx_power_dbm r (some v) } r now
        | none =>
          match taParse l with
          | some v =>
            maybeEmitCombined { s with last_ta_kpi := fupd s.last_ta_kpi r (some v) } r now
          | none => stepPlainTail kpi s r now l
    else stepPlainTail kpi s r now l

/-- One stdout line through the combined-stdout path (source lines 903-923):
duplicate suppression has no RACH exemption here, and surviving lines go out
as GSMTAP Osmocore records. -/
def stepCombined (kpi : Bool) (s : PPState) (r : Int) (l : List Char) :
    PPState × List (List Char) :=
  if kpi && (s.last_kpi_line r == some l) then (s, [])
  else
    let s := if kpi then { s with last_kpi_line := fupd s.last_kpi_line r (some l) } else s
    (s, [l])

/-- One emitted stdout line: radio, the clock value of its iteration, text. -/
structure Emit where
  radio : Int
  time : ℚ
  line : List Char
  deriving DecidableEq, Repr

/-- Feed one raw stdout line through strip/skip and the plain path. -/
def runPlainStep (kpi : Bool) (s : PPState) (inp : Int × ℚ × List Char) :
    PPState × List Emit :=
  let r := inp.1
  let now := inp.2.1
  let l := pyStrip inp.2.2
  if l.isEmpty then (s, [])
  else
    let p := stepPlain kpi s r now l
    (p.1, p.2.map (fun ln => ⟨r, now, ln⟩))

/-- Run a trace of `(radio, clock, raw line)` inputs through the plain path. -/
def runPlain (kpi : Bool) : PPState → List (Int × ℚ × List Char) → PPState × List Emit
  | s, [] => (s, [])
  | s, inp :: rest =>
    let p := runPlainStep kpi s inp
    let q := runPlain kpi p.1 rest
    (q.1, p.2 ++ q.2)

/-! ## Theorems for the claims -/

/-- A configuration with extended-message parsing enabled and empty stores. -/
def cfgMsgs : Cfg := { parse_msgs := true }

/-- An inner EXT_BUILD_ID frame of exactly 12 bytes. -/
def buildIdFrame : List Nat := [0x7c, 0, 0, 0, 0, 0, 0, 0, 0, 0, 0, 0]

/-- A multi-radio envelope with raw subscription id 2 around `buildIdFrame`. -/
def msPkt : List Nat := [0x98, 1, 0, 0, 2, 0, 0, 0] ++ buildIdFrame

/-- The result `msPkt` demultiplexes to. -/
def msRes : ParseResult := { stdout := some "Build ID: ".data, radio_id := some 1 }

/-- C6: `sanitize_radio_id` maps values ≤ 0 to 0, 1 to 0, 2 to 1 and values
above 2 to 1, and consequently the `radio_id` attached to every multi-radio
demultiplexed dict result is 0 or 1, never greater. -/
theorem c6_sanitize_radio_id :
    (∀ id : Int,
      (id ≤ 0 → sanitize_radio_id id = 0) ∧
      (id = 1 → sanitize_radio_id id = 0) ∧
      (id = 2 → sanitize_radio_id id = 1) ∧
      (2 < id → sanitize_radio_id id = 1)) ∧
    ∀ fuel cfg st pkt d,
      (parse_diag_multisimF fuel cfg st pkt).2.out = .ok (some d) →
      d.radio_id = some 0 ∨ d.radio_id = some 1 := by
  constructor
  · intro id
    refine ⟨?_, ?_, ?_, ?_⟩ <;> intro h <;> simp only [sanitize_radio_id] <;> split_ifs <;> omega
  · intro fuel cfg st pkt d h
    unfold parse_diag_multisimF parse_diag_multisimGo at h
    split at h
    · simp at h
    · set n := leRead pkt 4 4 with hn
      have hnn : (0 : Int) ≤ (n : Int) := Int.ofNat_nonneg n
      dsimp only at h
      split at h
      · next d' heq =>
        simp only at h
        injection h with h
        injection h with h
        subst h
        have : sanitize_radio_id (n : Int) = 0 ∨ sanitize_radio_id (n : Int) = 1 := by
          simp only [sanitize_radio_id]
          split_ifs <;> omega
        rcases this with h' | h'
        · left; simp [h']
        · right; simp [h']
      · next hne =>
        exact absurd h (hne d)

/-- Witness for C6 at concrete inputs: radio id 2 and the concrete envelope. -/
theorem c6_sanitize_radio_id_witness :
    sanitize_radio_id 2 = 1 ∧
    (parse_diag_multisimF 2 cfgMsgs {} msPkt).2.out = .ok (some msRes) ∧
    (msRes.radio_id = some 0 ∨ msRes.radio_id = some 1) :=
  ⟨(c6_sanitize_radio_id.1 2).2.2.1 rfl, by decide,
   c6_sanitize_radio_id.2 2 cfgMsgs {} msPkt msRes (by decide)⟩

/-- C1 (amended): on a CRC mismatch with CRC checking enabled, `parse_diag`
logs exactly one warning for the mismatch but does **not** skip the frame: the
CRC is stripped and the frame is dispatched exactly as if the CRC had matched,
so decoded output may still be produced. -/
theorem c1_crc_mismatch_not_skipped :
    ∀ fuel cfg st pkt args b1 b2 rest,
      cfg.check_crc = true →
      ¬ pkt.length < 3 →
      (unwrap pkt).reverse = b1 :: b2 :: rest →
      dm_crc16 ((unwrap pkt).take ((unwrap pkt).length - 2)) ≠ (b1 % 256) * 256 + b2 % 256 →
      parse_diagF (fuel + 1) cfg st pkt true true args =
        ((parse_diag_dispatchF fuel cfg st ((unwrap pkt).take ((unwrap pkt).length - 2)) args).1,
         ⟨1 + (parse_diag_dispatchF fuel cfg st
            ((unwrap pkt).take ((unwrap pkt).length - 2)) args).2.warnings,
          (parse_diag_dispatchF fuel cfg st
            ((unwrap pkt).take ((unwrap pkt).length - 2)) args).2.out⟩) := by
  intro fuel cfg st pkt args b1 b2 rest hcrc hlen hrev hmis
  simp only [parse_diagF, parse_diagGo, parse_diag_dispatchF]
  rw [if_neg hlen]
  simp only [if_true, hrev]
  rw [hcrc]
  simp [hmis]

/-- The frame of the C1 counterexample: an EXT_BUILD_ID_F frame of 12 bytes
followed by a two-byte CRC field that does not match. -/
def c1Frame : List Nat := buildIdFrame ++ [0, 0]

set_option maxRecDepth 4000 in
/-- C1 counterexample: a frame whose trailing CRC does not match the CRC of
its payload is *not* skipped — `parse_diag` logs the one warning and then
still decodes it, returning a result dict with a non-empty stdout line, which
contradicts "no GSMTAP output and no KPI line for that frame". -/
theorem c1_crc_mismatch_cex :
    dm_crc16 buildIdFrame ≠ 0 ∧
    (parse_diagF 1 {} {} c1Frame true true none).2.warnings = 1 ∧
    (parse_diagF 1 {} {} c1Frame true true none).2.out =
      .ok (some { stdout := some "Build ID: ".data }) ∧
    "Build ID: ".data ≠ [] :=
  ⟨by decide, by decide, by decide, by decide⟩

/-- Witness for C1 at a concrete three-byte frame with a wrong CRC. -/
theorem c1_crc_mismatch_not_skipped_witness :
    dm_crc16 ((unwrap [0xff, 0, 0]).take ((unwrap [0xff, 0, 0]).length - 2)) ≠
      (0 % 256) * 256 + 0 % 256 ∧
    parse_diagF 1 {} {} [0xff, 0, 0] true true none =
      ((parse_diag_dispatchF 0 {} {}
          ((unwrap [0xff, 0, 0]).take ((unwrap [0xff, 0, 0]).length - 2)) none).1,
       ⟨1 + (parse_diag_dispatchF 0 {} {}
          ((unwrap [0xff, 0, 0]).take ((unwrap [0xff, 0, 0]).length - 2)) none).2.warnings,
        (parse_diag_dispatchF 0 {} {}
          ((unwrap [0xff, 0, 0]).take ((unwrap [0xff, 0, 0]).length - 2)) none).2.out⟩) :=
  ⟨by decide,
   c1_crc_mismatch_not_skipped 0 {} {} [0xff, 0, 0] none 0 0 [0xff]
     rfl (by decide) (by decide) (by decide)⟩

/-- C2 (amended): on a hash miss the QSR4 terse decoder emits nothing at all —
it falls off the end of the function and returns `None` (only the legacy QSR
decoder synthesizes a placeholder string). -/
theorem c2_qsr4_miss_returns_none :
    ∀ cfg pkt,
      ¬ pkt.length < 18 →
      (pkt.drop 18).length = (leRead pkt 2 1 % 16) * (leRead pkt 2 1 / 16) →
      leRead pkt 2 1 / 16 < 5 →
      assocLookup cfg.qsr4_content ((leRead pkt 12 4 : Nat) : Int) = none →
      parse_diag_qsr4_ext_msg cfg pkt = ⟨0, .ok none⟩ := by
  intro cfg pkt hlen hargs hsize hmiss
  unfold parse_diag_qsr4_ext_msg
  rw [if_neg hlen]
  simp only
  rw [if_neg (by omega : ¬ (pkt.drop 18).length ≠ leRead pkt 2 1 % 16 * (leRead pkt 2 1 / 16))]
  rw [if_neg (by omega : ¬ 5 ≤ leRead pkt 2 1 / 16)]
  rw [hmiss]

/-- The QSR4 terse packet of the C2 counterexample: hash `0xDEADBEEF`, no
arguments, and an empty hash store. -/
def c2Pkt : List Nat :=
  [0x99, 0, 0, 0, 0, 0, 0, 0, 0, 0, 0, 0, 0xEF, 0xBE, 0xAD, 0xDE, 0, 0]

/-- C2 counterexample: a QSR4 terse message whose hash is not in the store is
silently dropped — the decoder returns `None` (and so `parse_diag` produces no
GSMTAP record at all), contradicting "emits a synthetic placeholder string". -/
theorem c2_qsr4_miss_cex :
    leRead c2Pkt 12 4 = 0xDEADBEEF ∧
    assocLookup cfgMsgs.qsr4_content (0xDEADBEEF : Int) = none ∧
    parse_diag_qsr4_ext_msg cfgMsgs c2Pkt = ⟨0, .ok none⟩ ∧
    (parse_diagF 1 cfgMsgs {} c2Pkt false false none).2 = ⟨0, .ok none⟩ := by decide

/-- Witness for C2 at the concrete packet. -/
theorem c2_qsr4_miss_returns_none_witness :
    parse_diag_qsr4_ext_msg cfgMsgs c2Pkt = ⟨0, .ok none⟩ :=
  c2_qsr4_miss_returns_none cfgMsgs c2Pkt (by decide) (by decide) (by decide) (by decide)

/-- `parse_diag_ext_msg` raises `struct.error` whenever the packet is shorter
than the 20-byte header plus the declared 4-byte argument vector. -/
theorem ext_msg_short_raises_aux :
    ∀ pkt, pkt.length < 20 + 4 * leRead pkt 2 1 →
      parse_diag_ext_msg pkt = ⟨0, .error .structError⟩ := by
  intro pkt hshort
  unfold parse_diag_ext_msg
  unfold unpackSlice
  by_cases h20 : 0 + 20 ≤ pkt.length
  · rw [if_pos h20]
    simp only
    rw [if_neg (by omega : ¬ 20 + 4 * leRead pkt 2 1 ≤ pkt.length)]
  · rw [if_neg h20]

/-- C3 (amended): the decoders are *not* exception-free — the extended-message
decoder raises `struct.error` on every packet shorter than its 20-byte header
plus the declared 4-byte arguments, and `parse_diag` propagates the exception
instead of returning `None` or a dict. -/
theorem c3_ext_msg_short_raises :
    (∀ pkt, pkt.length < 20 + 4 * leRead pkt 2 1 →
      parse_diag_ext_msg pkt = ⟨0, .error .structError⟩) ∧
    ∀ fuel cfg st args b t,
      cfg.parse_msgs = true →
      b % 256 = 0x79 →
      ¬ (b :: t).length < 3 →
      (b :: t).length < 20 + 4 * leRead (b :: t) 2 1 →
      parse_diagF (fuel + 1) cfg st (b :: t) false false args =
        (st, ⟨0, .error .structError⟩) := by
  refine ⟨ext_msg_short_raises_aux, ?_⟩
  intro fuel cfg st args b t hmsgs hop hlen hshort
  simp only [parse_diagF, parse_diagGo]
  rw [if_neg hlen]
  simp only [Bool.false_eq_true, if_false, parse_diag_dispatchGo]
  rw [hop]
  simp only [DIAG_VERNO_F, DIAG_LOG_F, DIAG_EVENT_REPORT_F, DIAG_LOG_CONFIG_F,
    DIAG_EXT_MSG_F, hmsgs]
  norm_num
  exact ext_msg_short_raises_aux _ hshort

/-- C3 counterexample: a three-byte `EXT_MSG_F` packet makes `parse_diag`
raise `struct.error` (from `struct.unpack` on the 20-byte header slice)
instead of returning `None` or a structured result. -/
theorem c3_decoder_raises_cex :
    (parse_diagF 1 cfgMsgs {} [0x79, 0, 0] false false none).2 =
      ⟨0, .error .structError⟩ ∧
    parse_diag_ext_msg [0x79, 0, 0] = ⟨0, .error .structError⟩ := by decide

/-- Witness for C3 at the concrete three-byte packet. -/
theorem c3_ext_msg_short_raises_witness :
    parse_diag_ext_msg [0x79, 0, 0] = ⟨0, .error .structError⟩ ∧
    parse_diagF 1 cfgMsgs {} [0x79, 0, 0] false false none =
      ({}, ⟨0, .error .structError⟩) :=
  ⟨c3_ext_msg_short_raises.1 [0x79, 0, 0] (by decide),
   c3_ext_msg_short_raises.2 0 cfgMsgs {} none 0x79 [0, 0]
     (by decide) (by decide) (by decide) (by decide)⟩

/-- C4 (amended): the log-item dispatcher passes the *entire* tail after the
16-byte header to the per-log-id decoder — exactly `len(pkt) - 16` bytes, not
`length2 - 12` — and logs one warning exactly when the two disagree. -/
theorem c4_log_dispatch_full_tail :
    ∀ cfg pkt args f,
      ¬ pkt.length < 16 →
      cfg.process (leRead pkt 6 2) = some f →
      (pkt.drop 16).length = pkt.length - 16 ∧
      parse_diag_log cfg pkt args =
        ⟨(if ((pkt.drop 16).length : Int) ≠ (leRead pkt 4 2 : Int) - 12 then 1 else 0) +
            (f ⟨leRead pkt 0 1, leRead pkt 1 1, leRead pkt 2 2, leRead pkt 4 2,
                leRead pkt 6 2, leRead pkt 8 8⟩ (pkt.drop 16) args).warnings,
          (f ⟨leRead pkt 0 1, leRead pkt 1 1, leRead pkt 2 2, leRead pkt 4 2,
              leRead pkt 6 2, leRead pkt 8 8⟩ (pkt.drop 16) args).out⟩ := by
  intro cfg pkt args f hlen hproc
  refine ⟨by simp, ?_⟩
  unfold parse_diag_log
  rw [if_neg hlen]
  simp only [hproc]

/-- The probe decoder of the C4 counterexample: reports how many payload
bytes it received. -/
def c4Probe : LogDecoder :=
  fun _ body _ => ⟨0, .ok (some { stdout := some (natDigits body.length) })⟩

/-- A `process` table holding only the probe decoder at log id `0x0CAB`. -/
def c4Cfg : Cfg := { process := fun i => if i == 0x0CAB then some c4Probe else none }

/-- The log frame of the C4 counterexample: `length2 = 13` (so
`length2 - 12 = 1` byte of declared payload) but two actual body bytes. -/
def c4Pkt : List Nat :=
  [0x10, 0, 13, 0, 13, 0, 0xAB, 0x0C, 0, 0, 0, 0, 0, 0, 0, 0, 1, 2]

/-- C4 counterexample: with `length2 - 12 = 1`, the per-log-id decoder
nevertheless receives 2 bytes (the whole tail), so the dispatcher does not
consume exactly `length2 - 12` payload bytes; the discrepancy is reported as
one warning. -/
theorem c4_log_dispatch_cex :
    leRead c4Pkt 4 2 = 13 ∧
    (c4Pkt.drop 16).length = 2 ∧
    parse_diag_log c4Cfg c4Pkt none = ⟨1, .ok (some { stdout := some ['2'] })⟩ := by decide

/-- Witness for C4 at the concrete frame and probe decoder. -/
theorem c4_log_dispatch_full_tail_witness :
    (c4Pkt.drop 16).length = c4Pkt.length - 16 ∧
    parse_diag_log c4Cfg c4Pkt none =
      ⟨(if ((c4Pkt.drop 16).length : Int) ≠ (leRead c4Pkt 4 2 : Int) - 12 then 1 else 0) +
          (c4Probe ⟨leRead c4Pkt 0 1, leRead c4Pkt 1 1, leRead c4Pkt 2 2, leRead c4Pkt 4 2,
              leRead c4Pkt 6 2, leRead c4Pkt 8 8⟩ (c4Pkt.drop 16) none).warnings,
        (c4Probe ⟨leRead c4Pkt 0 1, leRead c4Pkt 1 1, leRead c4Pkt 2 2, leRead c4Pkt 4 2,
            leRead c4Pkt 6 2, leRead c4Pkt 8 8⟩ (c4Pkt.drop 16) none).out⟩ :=
  c4_log_dispatch_full_tail c4Cfg c4Pkt none c4Probe (by decide) (by rfl)

/-- On a template without `%` the conversion scanner finds nothing and leaves
the template untouched. -/
theorem cfmtScanGo_no_percent : ∀ fuel s, '%' ∉ s → cfmtScanGo fuel s = ([], s) := by
  intro fuel
  induction fuel with
  | zero => intro s _; rfl
  | succ fuel ih =>
    intro s h
    cases s with
    | nil => rfl
    | cons c rest =>
      simp only [List.mem_cons, not_or] at h
      have hc : (c == '%') = false := by
        cases hcc : c == '%' with
        | true => exact absurd (beq_iff_eq.mp hcc).symm h.1
        | false => rfl
      simp only [cfmtScanGo, hc, Bool.false_eq_true, if_false]
      rw [ih rest h.2]

/-- On a template without braces `str.format` copies the text verbatim. -/
theorem pyFormatGo_no_brace :
    ∀ args fuel mode auto s, '\x7b' ∉ s → '\x7d' ∉ s →
      pyFormatGo args fuel mode auto s = .ok s := by
  intro args fuel
  induction fuel with
  | zero => intro mode auto s _ _; rfl
  | succ fuel ih =>
    intro mode auto s hb hd
    cases s with
    | nil => rfl
    | cons c rest =>
      simp only [List.mem_cons, not_or] at hb hd
      simp only [pyFormatGo]
      rw [if_neg (fun hcc => hd.1 hcc.symm), if_neg (fun hcc => hb.1 hcc.symm)]
      rw [ih mode auto rest hb.2 hd.2]
      rfl

/-- C5 (amended): `_snprintf` returns the template unchanged for every
template that contains no `%` **and no brace characters** and for every
argument vector.  (A `%`-free template that contains braces is fed to
Python's `str.format`, which interprets the braces, so the original claim
fails on such templates.) -/
theorem c5_snprintf_identity :
    ∀ fmtstr args, '%' ∉ fmtstr → '\x7b' ∉ fmtstr → '\x7d' ∉ fmtstr →
      snprintf fmtstr args = .ok fmtstr := by
  intro fmtstr args hp hb hd
  unfold snprintf cfmtScan
  rw [cfmtScanGo_no_percent _ _ hp]
  simp only [List.length_nil, Nat.not_lt_zero, if_false, snprintfLoop]
  have : pyFormat fmtstr [] = .ok fmtstr := by
    unfold pyFormat
    exact pyFormatGo_no_brace [] _ _ _ _ hb hd
  rw [this]

/-- C5 counterexample: the template `\x7b\x7b` contains no `%`, yet
`_snprintf` returns the single character `\x7b` — Python's `str.format`
collapses the doubled brace — so the template is not returned unchanged. -/
theorem c5_snprintf_cex :
    '%' ∉ "\x7b\x7b".data ∧
    snprintf "\x7b\x7b".data [] = .ok ['\x7b'] ∧
    "\x7b\x7b".data ≠ ['\x7b'] := by decide

/-- Witness for C5 at a concrete brace-free template and arguments. -/
theorem c5_snprintf_identity_witness :
    snprintf "LTE KPI: ready".data [5, 6] = .ok "LTE KPI: ready".data :=
  c5_snprintf_identity "LTE KPI: ready".data [5, 6] (by decide) (by decide) (by decide)

/-! ### Prefix machinery for the stdout-pipeline claims -/

/-- Two prefixes agree on their common length. -/
def compatPre : List Char → List Char → Bool
  | [], _ => true
  | _ :: _, [] => true
  | a :: as, b :: bs => a == b && compatPre as bs

/-- Two prefixes of the same line are compatible. -/
theorem leadsWith_compat : ∀ p1 p2 l, leadsWith p1 l = true → leadsWith p2 l = true →
    compatPre p1 p2 = true := by
  intro p1
  induction p1 with
  | nil => intro p2 l _ _; rfl
  | cons a as ih =>
    intro p2 l h1 h2
    cases p2 with
    | nil => rfl
    | cons b bs =>
      cases l with
      | nil => simp [leadsWith] at h1
      | cons c cs =>
        simp only [leadsWith, Bool.and_eq_true] at h1 h2
        simp only [compatPre, Bool.and_eq_true]
        refine ⟨?_, ih bs cs h1.2 h2.2⟩
        rw [beq_iff_eq.mp h1.1, beq_iff_eq.mp h2.1]
        exact beq_self_eq_true c

/-- A line with prefix `p1` cannot also have a prefix incompatible with it. -/
theorem not_leadsWith_of_incompat (p1 p2 l : List Char) (h1 : leadsWith p1 l = true)
    (hc : compatPre p1 p2 = false) : leadsWith p2 l = false := by
  cases h2 : leadsWith p2 l with
  | true => exact absurd (leadsWith_compat p1 p2 l h1 h2) (by simp [hc])
  | false => rfl

/-- `dropPre` succeeding means the prefix matches. -/
theorem dropPre_leadsWith : ∀ p l r, dropPre p l = some r → leadsWith p l = true := by
  intro p
  induction p with
  | nil => intro l r _; rfl
  | cons a as ih =>
    intro l r h
    cases l with
    | nil => simp [dropPre] at h
    | cons c cs =>
      simp only [dropPre] at h
      split at h
      · next hac => simp only [leadsWith, Bool.and_eq_true]; exact ⟨hac, ih cs r h⟩
      · exact absurd h (by simp)

/-- A prefix of a prefix is a prefix. -/
theorem leadsWith_append_left : ∀ p q l, leadsWith (p ++ q) l = true →
    leadsWith p l = true := by
  intro p
  induction p with
  | nil => intro q l _; rfl
  | cons a as ih =>
    intro q l h
    cases l with
    | nil => simp [leadsWith] at h
    | cons c cs =>
      simp only [List.cons_append, leadsWith, Bool.and_eq_true] at h ⊢
      exact ⟨h.1, ih q cs h.2⟩

/-- Every list is a prefix of itself extended. -/
theorem leadsWith_self_append : ∀ p q, leadsWith p (p ++ q) = true := by
  intro p
  induction p with
  | nil => intro q; rfl
  | cons a as ih =>
    intro q
    simp only [List.cons_append, leadsWith, Bool.and_eq_true]
    exact ⟨beq_self_eq_true a, ih q⟩

/-- Destruct a successful prefix test. -/
theorem leadsWith_cons_dst : ∀ (c : Char) p l, leadsWith (c :: p) l = true →
    ∃ t, l = c :: t ∧ leadsWith p t = true := by
  intro c p l h
  cases l with
  | nil => simp [leadsWith] at h
  | cons d ds =>
    simp only [leadsWith, Bool.and_eq_true] at h
    exact ⟨ds, by rw [beq_iff_eq.mp h.1], h.2⟩

/-- A successful capture implies the prefix matched. -/
theorem parseNatPre_leadsWith (p l : List Char) (v : Nat)
    (h : parseNatPre p l = some v) : leadsWith p l = true := by
  unfold parseNatPre at h
  split at h
  · next r hdp => exact dropPre_leadsWith p l r hdp
  · exact absurd h (by simp)

/-- A successful TX-power capture implies the TX prefix matched. -/
theorem txParse_leadsWith (l : List Char) (v : Int)
    (h : txParse l = some v) : leadsWith txPre l = true := by
  unfold txParse at h
  split at h
  · next r hdp => exact dropPre_leadsWith txPre l r hdp
  · exact absurd h (by simp)

/-- A line whose head is not a digit never matches the DL-MCS pattern. -/
theorem mhzTest_false_head (c : Char) (t : List Char) (hc : c.isDigit = false) :
    mhzTest (c :: t) = false := by
  simp [mhzTest, takeDigits, hc]

/-- A line with a non-digit-initial prefix never matches the DL-MCS pattern. -/
theorem mhzTest_false_of_pre (c : Char) (p l : List Char)
    (h : leadsWith (c :: p) l = true) (hc : c.isDigit = false) : mhzTest l = false := by
  obtain ⟨t, ht, _⟩ := leadsWith_cons_dst c p l h
  rw [ht]
  exact mhzTest_false_head c t hc

/-- `ulParse` fails on a line whose prefix is incompatible with the UL one. -/
theorem ulParse_none_of (l : List Char) (p : List Char) (hp : leadsWith p l = true)
    (hinc : compatPre p ulPre = false) : ulParse l = none := by
  cases h : ulParse l with
  | none => rfl
  | some v =>
    have := parseNatPre_leadsWith ulPre l v h
    rw [not_leadsWith_of_incompat p ulPre l hp hinc] at this
    exact absurd this (by simp)

/-- `taParse` fails on a line whose prefix is incompatible with the TA one. -/
theorem taParse_none_of (l : List Char) (p : List Char) (hp : leadsWith p l = true)
    (hinc : compatPre p taPre = false) : taParse l = none := by
  cases h : taParse l with
  | none => rfl
  | some v =>
    have := parseNatPre_leadsWith taPre l v h
    rw [not_leadsWith_of_incompat p taPre l hp hinc] at this
    exact absurd this (by simp)

/-- `txParse` fails on a line whose prefix is incompatible with the TX one. -/
theorem txParse_none_of (l : List Char) (p : List Char) (hp : leadsWith p l = true)
    (hinc : compatPre p txPre = false) : txParse l = none := by
  cases h : txParse l with
  | none => rfl
  | some v =>
    have := txParse_leadsWith l v h
    rw [not_leadsWith_of_incompat p txPre l hp hinc] at this
    exact absurd this (by simp)

/-- `rrcParse` fails on a line whose prefix is incompatible with the RRC one. -/
theorem rrcParse_none_of (l : List Char) (p : List Char) (hp : leadsWith p l = true)
    (hinc : compatPre p rrcPre = false) : rrcParse l = none := by
  unfold rrcParse
  cases hdp : dropPre rrcPre l with
  | none => rfl
  | some x =>
    have := dropPre_leadsWith rrcPre l x hdp
    rw [not_leadsWith_of_incompat p rrcPre l hp hinc] at this
    exact absurd this (by simp)

/-- A `LTE KPI RACH:` line passes the plain stdout path untouched: it skips
the duplicate suppression, matches none of the gates, throttles, captures or
triggers, and is emitted on its own. -/
theorem stepPlain_rach (s : PPState) (r : Int) (now : ℚ) (l : List Char)
    (hrach : leadsWith rachPre l = true) : (stepPlain true s r now l).2 = [l] := by
  have hm : mhzTest l = false :=
    mhzTest_false_of_pre 'L' "TE KPI RACH:".data l hrach (by decide)
  have hta : leadsWith taPre l = false :=
    not_leadsWith_of_incompat rachPre taPre l hrach (by decide)
  have hul : ulParse l = none := ulParse_none_of l rachPre hrach (by decide)
  have htx : txParse l = none := txParse_none_of l rachPre hrach (by decide)
  have htap : taParse l = none := taParse_none_of l rachPre hrach (by decide)
  have hrrc : rrcParse l = none := rrcParse_none_of l rachPre hrach (by decide)
  have hscE : leadsWith scellEarfcnPre l = false :=
    not_leadsWith_of_incompat rachPre scellEarfcnPre l hrach (by decide)
  have hscC : leadsWith scellConnPre l = false :=
    not_leadsWith_of_incompat rachPre scellConnPre l hrach (by decide)
  have hulT : leadsWith ulTrigPre l = false :=
    not_leadsWith_of_incompat rachPre ulTrigPre l hrach (by decide)
  have htxT : leadsWith txTrigPre l = false :=
    not_leadsWith_of_incompat rachPre txTrigPre l hrach (by decide)
  have hcomb : leadsWith combPre l = false :=
    not_leadsWith_of_incompat rachPre combPre l hrach (by decide)
  have htail : ∀ s', (stepPlainTail true s' r now l).2 = [l] := by
    intro s'
    unfold stepPlainTail
    simp only [hscE, hscC, hrrc, hm, hulT, htxT, hcomb, Bool.and_false, Bool.false_and,
      Bool.and_true, Bool.true_and, Bool.or_self, Bool.false_or, Bool.or_false,
      Bool.false_eq_true, if_false, List.nil_append]
  unfold stepPlain
  simp only [hrach, hm, hta, hul, htx, htap, Bool.not_true, Bool.and_false, Bool.false_and,
    Bool.true_and, Bool.and_true, Bool.or_self, Bool.false_or, Bool.or_false,
    Bool.false_eq_true, if_false]
  split
  · exact htail _
  · exact htail _

/-- C8 (amended): in KPI mode, a stdout line equal to the radio's last KPI
line is suppressed with the state untouched — on the plain stdout path only
when it does not begin with `LTE KPI RACH:` (a duplicated RACH line is
emitted on both occurrences), while the combined-stdout path suppresses any
duplicate, RACH included. A non-RACH duplicate pair does not in general
produce exactly one emission: the first occurrence can itself be swallowed
earlier in the pipeline (a duplicated `LTE KPI: TA=7` pair while not
connected is dropped by the state gate on both occurrences, yielding zero
emissions). -/
theorem c8_dedup_paths :
    (∀ s r now l, leadsWith rachPre l = false → s.last_kpi_line r = some l →
      stepPlain true s r now l = (s, [])) ∧
    (∀ s r now1 now2 l, leadsWith rachPre l = true →
      (stepPlain true s r now1 l).2 = [l] ∧
      (stepPlain true (stepPlain true s r now1 l).1 r now2 l).2 = [l]) ∧
    (∀ s r l, ¬ s.last_kpi_line r = some l →
      (stepCombined true s r l).2 = [l] ∧
      (stepCombined true (stepCombined true s r l).1 r l).2 = []) ∧
    (runPlain true initPP
      [((0 : Int), (0 : ℚ), "LTE KPI: TA=7".data),
       ((0 : Int), (0 : ℚ), "LTE KPI: TA=7".data)]).2 = [] := by
  refine ⟨?_, ?_, ?_, by decide⟩
  · intro s r now l hrach heq
    unfold stepPlain
    have hc : (true && !leadsWith rachPre l && (s.last_kpi_line r == some l)) = true := by
      rw [hrach, heq]
      simp
    rw [if_pos hc]
  · intro s r now1 now2 l hrach
    exact ⟨stepPlain_rach s r now1 l hrach, stepPlain_rach _ r now2 l hrach⟩
  · intro s r l hne
    have hb : (s.last_kpi_line r == some l) = false := by
      cases hbb : s.last_kpi_line r == some l with
      | true => exact absurd (beq_iff_eq.mp hbb) hne
      | false => rfl
    constructor
    · unfold stepCombined
      simp [hb]
    · unfold stepCombined
      simp [hb, fupd]

/-- C8 counterexample: in the combined-stdout path with KPI mode on, the
second of two identical consecutive `LTE KPI RACH:` lines is suppressed — the
pair produces one emission, not two. -/
theorem c8_combined_rach_cex :
    leadsWith rachPre "LTE KPI RACH: x".data = true ∧
    (stepCombined true initPP 0 "LTE KPI RACH: x".data).2 = ["LTE KPI RACH: x".data] ∧
    (stepCombined true (stepCombined true initPP 0 "LTE KPI RACH: x".data).1 0
      "LTE KPI RACH: x".data).2 = [] := by decide

/-- Witness for C8 at concrete lines and states. -/
theorem c8_dedup_paths_witness :
    (stepPlain true
        { initPP with last_kpi_line := fupd initPP.last_kpi_line 0 (some "hello".data) }
        0 0 "hello".data =
      ({ initPP with last_kpi_line := fupd initPP.last_kpi_line 0 (some "hello".data) },
        [])) ∧
    ((stepPlain true initPP 0 0 "LTE KPI RACH: y".data).2 = ["LTE KPI RACH: y".data] ∧
      (stepPlain true (stepPlain true initPP 0 0 "LTE KPI RACH: y".data).1 0 1
        "LTE KPI RACH: y".data).2 = ["LTE KPI RACH: y".data]) ∧
    ((stepCombined true initPP 0 "hello".data).2 = ["hello".data] ∧
      (stepCombined true (stepCombined true initPP 0 "hello".data).1 0 "hello".data).2 = []) :=
  ⟨c8_dedup_paths.1
      { initPP with last_kpi_line := fupd initPP.last_kpi_line 0 (some "hello".data) }
      0 0 "hello".data (by decide) (by decide),
   c8_dedup_paths.2.1 initPP 0 0 1 "LTE KPI RACH: y".data (by decide),
   c8_dedup_paths.2.2.1 initPP 0 "hello".data (by decide)⟩

/-- The loader's line loop distributes over concatenation and stops at the
first exception. -/
theorem load_qsr_lines_append : ∀ l1 l2 m,
    load_qsr_lines (l1 ++ l2) m =
      match load_qsr_lines l1 m with
      | .ok m' => load_qsr_lines l2 m'
      | .error e => .error e := by
  intro l1
  induction l1 with
  | nil => intro l2 m; rfl
  | cons x xs ih =>
    intro l2 m
    simp only [List.cons_append, load_qsr_lines]
    cases load_qsr_line m x with
    | ok m' => exact ih l2 m'
    | error e => rfl

/-- C9 (amended): a legacy hash-file load that fails partway reports failure
(the `ValueError` is caught and the loaded flag stays false) but the
in-memory map is *not* left empty — it keeps exactly the entries inserted by
the lines before the failing one; and after a successful (non-empty) load,
`parse_msgs` is enabled. -/
theorem c9_partial_load :
    (∀ pre line rest msgs0 m,
      load_qsr_lines pre [] = .ok m →
      load_qsr_line m line = .error (.valueError, m) →
      set_parameter_qsr (pre ++ line :: rest) msgs0 [] = .ok ⟨msgs0, false, m⟩) ∧
    ∀ lines msgs0 m,
      load_qsr_lines lines [] = .ok m → 0 < m.length →
      set_parameter_qsr lines msgs0 [] = .ok ⟨true, true, m⟩ := by
  constructor
  · intro pre line rest msgs0 m h1 h2
    unfold set_parameter_qsr load_qsr_hash
    rw [load_qsr_lines_append, h1]
    simp only [load_qsr_lines, h2]
  · intro lines msgs0 m h1 hm
    unfold set_parameter_qsr load_qsr_hash
    rw [h1]
    simp [hm]

/-- The two file lines of the C9 counterexample. -/
def c9Line1 : List Char := "100:file.c:str".data

/-- A line whose hash field is not an integer (raises `ValueError`). -/
def c9Line2 : List Char := "xyz:file.c:str".data

/-- C9 counterexample: loading a file whose second line fails leaves the
first line's entry in the map — failure is reported (`loaded = false`,
`parse_msgs` untouched) but the map is *not* empty. -/
theorem c9_partial_load_cex :
    set_parameter_qsr [c9Line1, c9Line2] false [] =
      .ok ⟨false, false, [(100, ⟨"file.c".data, "str".data⟩)]⟩ ∧
    [((100 : Int), (⟨"file.c".data, "str".data⟩ : QsrContent))] ≠ ([] : QsrMap) := by decide

/-- Witness for C9 at the concrete two-line file and the one-line file. -/
theorem c9_partial_load_witness :
    set_parameter_qsr [c9Line1, c9Line2] false [] =
      .ok ⟨false, false, [(100, ⟨"file.c".data, "str".data⟩)]⟩ ∧
    set_parameter_qsr [c9Line1] false [] =
      .ok ⟨true, true, [(100, ⟨"file.c".data, "str".data⟩)]⟩ :=
  ⟨c9_partial_load.1 [c9Line1] c9Line2 [] false [(100, ⟨"file.c".data, "str".data⟩)]
      (by decide) (by decide),
   c9_partial_load.2 [c9Line1] false [(100, ⟨"file.c".data, "str".data⟩)]
      (by decide) (by decide)⟩

/-! ### State invariant and step lemmas for the pipeline claims -/

/-- The common prefix of both serving-cell line patterns. -/
def scellCommonPre : List Char := "LTE Primary Cell".data

/-- Invariant: every cached serving-cell line starts with the serving-cell
prefix (it was only ever stored under one of the two `startswith` guards). -/
def scellInv (s : PPState) : Prop :=
  ∀ r c, s.last_scell_line r = some c → leadsWith scellCommonPre c = true

theorem initPP_scellInv : scellInv initPP := by
  intro r c h
  simp [initPP] at h

theorem scellInv_fupd (s : PPState) (f : Int → Option (List Char)) (r : Int) (l : List Char)
    (hf : ∀ r' c, f r' = some c → leadsWith scellCommonPre c = true)
    (hl : leadsWith scellCommonPre l = true) :
    ∀ r' c, fupd f r (some l) r' = some c → leadsWith scellCommonPre c = true := by
  intro r' c hc
  unfold fupd at hc
  split at hc
  · injection hc with hc; subst hc; exact hl
  · exact hf r' c hc

/-- The earfcn-pattern serving-cell prefix extends the common one. -/
theorem scellEarfcn_common (l : List Char) (h : leadsWith scellEarfcnPre l = true) :
    leadsWith scellCommonPre l = true := by
  have he : scellCommonPre ++ ": EARFCN:".data = scellEarfcnPre := by decide
  rw [← he] at h
  exact leadsWith_append_left _ _ _ h

/-- The connected-pattern serving-cell prefix extends the common one. -/
theorem scellConn_common (l : List Char) (h : leadsWith scellConnPre l = true) :
    leadsWith scellCommonPre l = true := by
  have he : scellCommonPre ++ " (Connected):".data = scellConnPre := by decide
  rw [← he] at h
  exact leadsWith_append_left _ _ _ h

/-- The combined line built by `_maybe_emit_combined_kpi` starts with the
combined-KPI prefix. -/
theorem combLine_leadsWith (a b c : List Char) :
    leadsWith combPre (combPre ++ a ++ ", TX power=".data ++ b ++ " dBm, TA=".data ++ c)
      = true := by
  simp only [List.append_assoc]
  exact leadsWith_self_append _ _

/-- `_maybe_emit_combined_kpi` never touches the cached serving-cell lines. -/
theorem maybeEmit_scell_line (s : PPState) (r : Int) (now : ℚ) :
    (maybeEmitCombined s r now).1.last_scell_line = s.last_scell_line := by
  unfold maybeEmitCombined
  split
  · rfl
  · split
    · rfl
    · dsimp only
      split <;> rfl

/-- `_maybe_emit_combined_kpi`: either nothing is emitted and the per-radio
combined-KPI clock is untouched, or the one-second throttle was open, the
clock is stamped with `now`, and the emissions are cached serving-cell lines
followed by exactly one combined-KPI line. -/
theorem maybeEmit_comb (s : PPState) (r : Int) (now : ℚ) :
    ((maybeEmitCombined s r now).1.last_combined_kpi_emit_time =
        s.last_combined_kpi_emit_time ∧ (maybeEmitCombined s r now).2 = []) ∨
    (s.last_combined_kpi_emit_time r + 1 ≤ now ∧
      (maybeEmitCombined s r now).1.last_combined_kpi_emit_time =
        fupd s.last_combined_kpi_emit_time r now ∧
      ∃ pre cl, (maybeEmitCombined s r now).2 = pre ++ [cl] ∧
        leadsWith combPre cl = true ∧
        ∀ e ∈ pre, s.last_scell_line r = some e) := by
  unfold maybeEmitCombined
  split
  · exact .inl ⟨rfl, rfl⟩
  · next hthr =>
    split
    · exact .inl ⟨rfl, rfl⟩
    · right
      have hges : s.last_combined_kpi_emit_time r + 1 ≤ now := by
        rw [not_lt] at hthr
        linarith
      refine ⟨hges, ?_, ?_⟩
      · dsimp only
        split <;> rfl
      · dsimp only
        split
        · next hcond =>
          simp only [Bool.and_eq_true] at hcond
          obtain ⟨⟨_, hsome⟩, _⟩ := hcond
          obtain ⟨c, hc⟩ := Option.isSome_iff_exists.mp hsome
          refine ⟨[(s.last_scell_line r).getD []], _, rfl, combLine_leadsWith _ _ _, ?_⟩
          intro e he
          simp only [List.mem_singleton] at he
          subst he
          rw [hc]
          rfl
        · exact ⟨[], _, rfl, combLine_leadsWith _ _ _, by simp⟩

/-- The tail of the plain path (source lines 958-983): it never touches the
combined-KPI clock, it preserves the serving-cell invariant, and everything
it emits is either the line itself or a cached serving-cell line. -/
theorem stepPlainTail_props (kpi : Bool) (s : PPState) (r : Int) (now : ℚ) (l : List Char)
    (hinv : scellInv s) :
    (stepPlainTail kpi s r now l).1.last_combined_kpi_emit_time =
      s.last_combined_kpi_emit_time ∧
    scellInv (stepPlainTail kpi s r now l).1 ∧
    ∀ e ∈ (stepPlainTail kpi s r now l).2,
      e = l ∨ leadsWith scellCommonPre e = true := by
  unfold stepPlainTail
  split
  · next hcond =>
    have hE : leadsWith scellEarfcnPre l = true := by
      simp only [Bool.and_eq_true] at hcond
      exact hcond.1.2
    refine ⟨rfl, ?_, by intro e he; simp at he⟩
    intro r' c hc
    exact scellInv_fupd s s.last_scell_line r l hinv (scellEarfcn_common l hE) r' c hc
  · next hcond =>
    -- name the intermediate states
    dsimp only
    -- s1: optional serving-cell emit-time stamp
    set s1 := if kpi && leadsWith scellEarfcnPre l then
        { s with last_scell_emit_time := fupd s.last_scell_emit_time r now }
      else s with hs1
    have hinv1 : scellInv s1 ∧ s1.last_combined_kpi_emit_time = s.last_combined_kpi_emit_time
        ∧ s1.last_scell_line = s.last_scell_line := by
      rw [hs1]; split <;> exact ⟨hinv, rfl, rfl⟩
    -- s2: optional RRC-state capture
    set s2 := (match rrcParse l with
      | some st' => { s1 with lte_rrc_state := fupd s1.lte_rrc_state r (some st') }
      | none => s1) with hs2
    have hinv2 : scellInv s2 ∧ s2.last_combined_kpi_emit_time = s.last_combined_kpi_emit_time
        ∧ s2.last_scell_line = s.last_scell_line := by
      rw [hs2]
      split
      · exact ⟨fun r' c hc => hinv1.1 r' c hc, hinv1.2.1, hinv1.2.2⟩
      · exact ⟨hinv1.1, hinv1.2.1, hinv1.2.2⟩
    -- s3: optional serving-cell line capture
    set s3 := (if leadsWith scellEarfcnPre l || leadsWith scellConnPre l then
        let s' := { s2 with last_scell_line := fupd s2.last_scell_line r (some l) }
        if !(kpi && leadsWith scellEarfcnPre l) then
          { s' with last_scell_emit_time := fupd s'.last_scell_emit_time r now }
        else s'
      else s2) with hs3
    have hinv3 : scellInv s3 ∧ s3.last_combined_kpi_emit_time = s.last_combined_kpi_emit_time := by
      rw [hs3]
      split
      · next hor =>
        have hcom : leadsWith scellCommonPre l = true := by
          rcases Bool.or_eq_true _ _ |>.mp hor with h | h
          · exact scellEarfcn_common l h
          · exact scellConn_common l h
        have hstore : ∀ r' c,
            fupd s2.last_scell_line r (some l) r' = some c →
              leadsWith scellCommonPre c = true := by
          intro r' c hc
          refine scellInv_fupd s2 s2.last_scell_line r l ?_ hcom r' c hc
          intro r' c hc
          exact hinv2.1 r' c hc
        split <;> exact ⟨hstore, hinv2.2.1⟩
      · exact ⟨hinv2.1, hinv2.2.1⟩
    -- the re-emission and final record: the intermediate states become opaque
    clear_value s3 s2 s1
    clear hs1 hs2 hs3 hcond hinv hinv1 hinv2
    by_cases hre : (kpi && (s3.lte_rrc_state r == some connectedStr)
        && (s3.last_scell_line r).isSome
        && (mhzTest l || leadsWith ulTrigPre l || leadsWith txTrigPre l
            || leadsWith combPre l)
        && decide (2 < now - s3.last_scell_emit_time r)) = true
    · rw [if_pos hre]
      have hsome := (Bool.and_eq_true _ _ |>.mp
        (Bool.and_eq_true _ _ |>.mp (Bool.and_eq_true _ _ |>.mp hre).1).1).2
      obtain ⟨c, hc⟩ := Option.isSome_iff_exists.mp hsome
      have hccom : leadsWith scellCommonPre c = true := hinv3.1 r c hc
      refine ⟨?_, ?_, ?_⟩
      · split <;> exact hinv3.2
      · split <;> exact fun r' c' hc' => hinv3.1 r' c' hc'
      · intro e he
        simp only at he
        rcases List.mem_append.mp he with h | h
        · simp only [List.mem_singleton] at h
          right
          rw [h, hc]
          exact hccom
        · simp only [List.mem_singleton] at h
          exact .inl h
    · rw [if_neg hre]
      refine ⟨?_, ?_, ?_⟩
      · split <;> exact hinv3.2
      · split <;> exact fun r' c' hc' => hinv3.1 r' c' hc'
      · intro e he
        simp only [List.nil_append, List.mem_singleton] at he
        exact .inl he

/-- A filter whose predicate fails on every member is empty. -/
theorem filter_eq_nil_of_false {α : Type} {p : α → Bool} :
    ∀ (xs : List α), (∀ a ∈ xs, p a = false) → List.filter p xs = [] := by
  intro xs h
  induction xs with
  | nil => rfl
  | cons x xs ih =>
    simp only [List.filter]
    rw [h x (List.mem_cons_self x xs)]
    exact ih (fun a ha => h a (List.mem_cons_of_mem x ha))

/-- `_maybe_emit_combined_kpi` preserves the serving-cell invariant, never
emits an individual TA line, and either leaves the combined-KPI clock alone
with no emission or fires: the throttle was open, the clock is stamped, and
exactly one emitted line has the combined-KPI form. -/
theorem maybeEmit_props (s0 s5 : PPState) (r : Int) (now : ℚ)
    (hinv5 : scellInv s5)
    (hclock : s5.last_combined_kpi_emit_time = s0.last_combined_kpi_emit_time) :
    scellInv (maybeEmitCombined s5 r now).1 ∧
    (∀ e ∈ (maybeEmitCombined s5 r now).2, taParse e = none) ∧
    (((maybeEmitCombined s5 r now).1.last_combined_kpi_emit_time =
        s0.last_combined_kpi_emit_time ∧ (maybeEmitCombined s5 r now).2 = []) ∨
     (s0.last_combined_kpi_emit_time r + 1 ≤ now ∧
      (maybeEmitCombined s5 r now).1.last_combined_kpi_emit_time =
        fupd s0.last_combined_kpi_emit_time r now ∧
      (List.filter (fun e => leadsWith combPre e)
        (maybeEmitCombined s5 r now).2).length = 1)) := by
  have hscell := maybeEmit_scell_line s5 r now
  have hinv' : scellInv (maybeEmitCombined s5 r now).1 := by
    intro r' c hc
    rw [hscell] at hc
    exact hinv5 r' c hc
  rcases maybeEmit_comb s5 r now with ⟨hc1, hc2⟩ | ⟨hge, hcl, pre, cl, hout, hcomb, hpre⟩
  · refine ⟨hinv', ?_, .inl ⟨hc1.trans hclock, hc2⟩⟩
    intro e he
    rw [hc2] at he
    exact absurd he (List.not_mem_nil e)
  · have hprecom : ∀ a ∈ pre, leadsWith combPre a = false := by
      intro a ha
      have hsc := hinv5 r a (hpre a ha)
      exact not_leadsWith_of_incompat scellCommonPre combPre a hsc (by decide)
    refine ⟨hinv', ?_, .inr ⟨?_, ?_, ?_⟩⟩
    · intro e he
      rw [hout] at he
      rcases List.mem_append.mp he with h | h
      · have hsc := hinv5 r e (hpre e h)
        exact taParse_none_of e scellCommonPre hsc (by decide)
      · rw [List.mem_singleton] at h
        subst h
        exact taParse_none_of e combPre hcomb (by decide)
    · rw [← congrFun hclock r]
      exact hge
    · rw [hcl, hclock]
    · rw [hout, List.filter_append, filter_eq_nil_of_false pre hprecom, List.nil_append]
      simp [hcomb]

/-- Assembling the tail-call cases of the plain path: with `taParse` failing
on the line itself, the tail never emits a TA line and any combined-form
emission is the line itself. -/
theorem stepPlainTail_assemble (s0 s4 : PPState) (r : Int) (now : ℚ) (l : List Char)
    (hinv4 : scellInv s4)
    (hclock : s4.last_combined_kpi_emit_time = s0.last_combined_kpi_emit_time)
    (htal : taParse l = none) :
    scellInv (stepPlainTail true s4 r now l).1 ∧
    (∀ e ∈ (stepPlainTail true s4 r now l).2, taParse e = none) ∧
    ((stepPlainTail true s4 r now l).1.last_combined_kpi_emit_time =
        s0.last_combined_kpi_emit_time ∧
      ∀ e ∈ (stepPlainTail true s4 r now l).2, leadsWith combPre e = true → e = l) := by
  have hp := stepPlainTail_props true s4 r now l hinv4
  refine ⟨hp.2.1, ?_, hp.1.trans hclock, ?_⟩
  · intro e he
    rcases hp.2.2 e he with he' | he'
    · rw [he']
      exact htal
    · exact taParse_none_of e scellCommonPre he' (by decide)
  · intro e he hcombe
    rcases hp.2.2 e he with he' | he'
    · exact he'
    · have hfalse := not_leadsWith_of_incompat scellCommonPre combPre e he' (by decide)
      rw [hfalse] at hcombe
      exact absurd hcombe (by simp)

/-- One line through the plain path in KPI mode: the serving-cell invariant
is preserved, no emission is an individual TA line, and either the combined
clock is untouched with combined-form emissions limited to the line itself,
or the one-second throttle was open, the clock is stamped, and exactly one
combined-form line goes out. -/
theorem stepPlain_props (s : PPState) (r : Int) (now : ℚ) (l : List Char)
    (hinv : scellInv s) :
    scellInv (stepPlain true s r now l).1 ∧
    (∀ e ∈ (stepPlain true s r now l).2, taParse e = none) ∧
    (((stepPlain true s r now l).1.last_combined_kpi_emit_time =
        s.last_combined_kpi_emit_time ∧
      ∀ e ∈ (stepPlain true s r now l).2, leadsWith combPre e = true → e = l) ∨
     (s.last_combined_kpi_emit_time r + 1 ≤ now ∧
      (stepPlain true s r now l).1.last_combined_kpi_emit_time =
        fupd s.last_combined_kpi_emit_time r now ∧
      (List.filter (fun e => leadsWith combPre e)
        (stepPlain true s r now l).2).length = 1)) := by
  unfold stepPlain
  split
  · exact ⟨hinv, fun e he => absurd he (by simp),
      .inl ⟨rfl, fun e he _ => absurd he (by simp)⟩⟩
  · split
    · exact ⟨hinv, fun e he => absurd he (by simp),
        .inl ⟨rfl, fun e he _ => absurd he (by simp)⟩⟩
    · next h2 =>
      split
      · exact ⟨hinv, fun e he => absurd he (by simp),
          .inl ⟨rfl, fun e he _ => absurd he (by simp)⟩⟩
      · dsimp only
        set s4 := if true && mhzTest l then
            { s with last_dl_mcs_emit_time := fupd s.last_dl_mcs_emit_time r now }
          else s with hs4
        have h4 : s4.last_combined_kpi_emit_time = s.last_combined_kpi_emit_time ∧
            s4.lte_rrc_state = s.lte_rrc_state ∧ scellInv s4 := by
          rw [hs4]
          split <;> exact ⟨rfl, rfl, fun r' c hc => hinv r' c hc⟩
        clear_value s4
        clear hs4
        split
        · -- connected: the three capture-and-group attempts
          cases hul : ulParse l with
          | some v =>
            have hp := maybeEmit_props s
              { s4 with last_ul_mcs := fupd s4.last_ul_mcs r (some v) } r now
              (fun r' c hc => h4.2.2 r' c hc) h4.1
            refine ⟨hp.1, hp.2.1, ?_⟩
            rcases hp.2.2 with ⟨hc1, hc2⟩ | hc
            · exact .inl ⟨hc1, fun e he _ => absurd (hc2 ▸ he) (List.not_mem_nil e)⟩
            · exact .inr hc
          | none =>
            cases htx : txParse l with
            | some v =>
              have hp := maybeEmit_props s
                { s4 with last_tx_power_dbm := fupd s4.last_tx_power_dbm r (some v) } r now
                (fun r' c hc => h4.2.2 r' c hc) h4.1
              refine ⟨hp.1, hp.2.1, ?_⟩
              rcases hp.2.2 with ⟨hc1, hc2⟩ | hc
              · exact .inl ⟨hc1, fun e he _ => absurd (hc2 ▸ he) (List.not_mem_nil e)⟩
              · exact .inr hc
            | none =>
              cases hta : taParse l with
              | some v =>
                have hp := maybeEmit_props s
                  { s4 with last_ta_kpi := fupd s4.last_ta_kpi r (some v) } r now
                  (fun r' c hc => h4.2.2 r' c hc) h4.1
                refine ⟨hp.1, hp.2.1, ?_⟩
                rcases hp.2.2 with ⟨hc1, hc2⟩ | hc
                · exact .inl ⟨hc1, fun e he _ => absurd (hc2 ▸ he) (List.not_mem_nil e)⟩
                · exact .inr hc
              | none =>
                have hp := stepPlainTail_assemble s s4 r now l h4.2.2 h4.1 hta
                exact ⟨hp.1, hp.2.1, .inl hp.2.2⟩
        · next hconn =>
          -- not connected: the gate above already rejected TA-pattern lines
          have h4r : s4.lte_rrc_state r = s.lte_rrc_state r := congrFun h4.2.1 r
          simp only [Bool.true_and] at hconn h2
          rw [h4r] at hconn
          have hrrc : (s.lte_rrc_state r == some connectedStr) = false := by
            cases hq : (s.lte_rrc_state r == some connectedStr)
            · rfl
            · exact absurd hq hconn
          rw [hrrc] at h2
          simp only [Bool.not_false, Bool.true_and] at h2
          have htal : leadsWith taPre l = false := by
            cases hq : leadsWith taPre l
            · rfl
            · exact absurd (by rw [hq]; simp) h2
          have htan : taParse l = none := by
            cases hq : taParse l with
            | none => rfl
            | some v =>
              have := parseNatPre_leadsWith taPre l v hq
              rw [htal] at this
              exact absurd this (by simp)
          have hp := stepPlainTail_assemble s s4 r now l h4.2.2 h4.1 htan
          exact ⟨hp.1, hp.2.1, .inl hp.2.2⟩

/-- Unfolding one input of the plain-path driver. -/
theorem runPlain_cons (kpi : Bool) (s : PPState) (inp : Int × ℚ × List Char)
    (rest : List (Int × ℚ × List Char)) :
    runPlain kpi s (inp :: rest) =
      ((runPlain kpi (runPlainStep kpi s inp).1 rest).1,
       (runPlainStep kpi s inp).2 ++ (runPlain kpi (runPlainStep kpi s inp).1 rest).2) :=
  rfl

/-- One raw input through the plain path: the invariant is preserved and no
emission is an individual TA line. -/
theorem runPlainStep_ta (s : PPState) (r0 : Int) (now : ℚ) (raw : List Char)
    (hinv : scellInv s) :
    scellInv (runPlainStep true s (r0, now, raw)).1 ∧
    ∀ e ∈ (runPlainStep true s (r0, now, raw)).2, taParse e.line = none := by
  unfold runPlainStep
  dsimp only
  split
  · exact ⟨hinv, fun e he => absurd he (List.not_mem_nil e)⟩
  · have hp := stepPlain_props s r0 now (pyStrip raw) hinv
    refine ⟨hp.1, ?_⟩
    intro e he
    rw [List.mem_map] at he
    obtain ⟨ln, hln, he⟩ := he
    rw [← he]
    exact hp.2.1 ln hln

/-- Whole-trace version: from any state satisfying the serving-cell
invariant, the plain path never emits an individual TA line. -/
theorem runPlain_ta (inputs : List (Int × ℚ × List Char)) :
    ∀ (s : PPState), scellInv s →
      scellInv (runPlain true s inputs).1 ∧
      ∀ e ∈ (runPlain true s inputs).2, taParse e.line = none := by
  induction inputs with
  | nil => exact fun s hinv => ⟨hinv, fun e he => absurd he (List.not_mem_nil e)⟩
  | cons inp rest ih =>
    intro s hinv
    obtain ⟨r0, now, raw⟩ := inp
    rw [runPlain_cons]
    have hstep := runPlainStep_ta s r0 now raw hinv
    have hrest := ih _ hstep.1
    refine ⟨hrest.1, ?_⟩
    intro e he
    rcases List.mem_append.mp he with h | h
    · exact hstep.2 e h
    · exact hrest.2 e h

/-- C10: with KPI mode on and the combined-stdout path off, no individual
`LTE KPI: TA=<n>` line is ever printed: on every input trace from a state
whose cached serving-cell lines are well-formed (as they are initially and
stay), every emitted line fails the TA pattern — while disconnected such
lines are dropped by the state gate, while connected they are absorbed into
the combined-KPI slot. -/
theorem c10_no_individual_ta_line (s0 : PPState)
    (inputs : List (Int × ℚ × List Char)) (hinv : scellInv s0) :
    ∀ e ∈ (runPlain true s0 inputs).2, taParse e.line = none :=
  (runPlain_ta inputs s0 hinv).2

theorem c10_no_individual_ta_line_witness :
    scellInv initPP ∧
    ∀ e ∈ (runPlain true initPP
        [((0 : Int), (0 : ℚ), "LTE KPI: TA=7".data)]).2,
      taParse e.line = none :=
  ⟨initPP_scellInv,
   c10_no_individual_ta_line initPP
     [((0 : Int), (0 : ℚ), "LTE KPI: TA=7".data)] initPP_scellInv⟩

/-! ## C7: the one-second combined-KPI window -/

/-- The iteration clocks of the combined-KPI-form lines emitted for `r`. -/
def combTimes (r : Int) (es : List Emit) : List ℚ :=
  (es.filter (fun e => (e.radio == r) && leadsWith combPre e.line)).map
    (fun e => e.time)

theorem combTimes_append (r : Int) (a b : List Emit) :
    combTimes r (a ++ b) = combTimes r a ++ combTimes r b := by
  simp [combTimes]

/-- Emissions tagged with the step's own radio. -/
theorem combTimes_map_eq (r : Int) (now : ℚ) :
    ∀ (lines : List (List Char)),
      combTimes r (lines.map (fun ln => ⟨r, now, ln⟩)) =
        (lines.filter (fun ln => leadsWith combPre ln)).map (fun _ => now) := by
  intro lines
  induction lines with
  | nil => rfl
  | cons x xs ih =>
    simp only [List.map_cons, combTimes, List.filter_cons] at ih ⊢
    cases hc : leadsWith combPre x <;> simp [hc, ih]

/-- Emissions tagged with another radio never count for `r`. -/
theorem combTimes_map_ne (r r0 : Int) (now : ℚ) (hr : r0 ≠ r) :
    ∀ (lines : List (List Char)),
      combTimes r (lines.map (fun ln => ⟨r0, now, ln⟩)) = [] := by
  have hb : (r0 == r) = false := beq_eq_false_iff_ne.mpr hr
  intro lines
  induction lines with
  | nil => rfl
  | cons x xs ih =>
    simp only [List.map_cons, combTimes, List.filter_cons] at ih ⊢
    simp [hb, ih]

/-- One raw input through the plain path, watched from radio `r`: either the
combined clock of `r` and its combined-KPI emissions are untouched, or this
step is for `r`, the one-second throttle was open, the clock becomes `now`
and exactly one combined-KPI line for `r` goes out, timestamped `now`. -/
theorem runPlainStep_comb (r : Int) (s : PPState) (r0 : Int) (now : ℚ)
    (raw : List Char) (hinv : scellInv s)
    (hraw : leadsWith combPre (pyStrip raw) = false) :
    scellInv (runPlainStep true s (r0, now, raw)).1 ∧
    (((runPlainStep true s (r0, now, raw)).1.last_combined_kpi_emit_time r =
        s.last_combined_kpi_emit_time r ∧
      combTimes r (runPlainStep true s (r0, now, raw)).2 = []) ∨
     (s.last_combined_kpi_emit_time r + 1 ≤ now ∧
      (runPlainStep true s (r0, now, raw)).1.last_combined_kpi_emit_time r = now ∧
      combTimes r (runPlainStep true s (r0, now, raw)).2 = [now])) := by
  unfold runPlainStep
  dsimp only
  split
  · exact ⟨hinv, .inl ⟨rfl, rfl⟩⟩
  · have hp := stepPlain_props s r0 now (pyStrip raw) hinv
    refine ⟨hp.1, ?_⟩
    rcases hp.2.2 with ⟨hc1, hc2⟩ | ⟨hge, hcl, hlen⟩
    · left
      refine ⟨congrFun hc1 r, ?_⟩
      have hall : ∀ ln ∈ (stepPlain true s r0 now (pyStrip raw)).2,
          leadsWith combPre ln = false := by
        intro ln hln
        cases hq : leadsWith combPre ln
        · rfl
        · have hl := hc2 ln hln hq
          rw [hl, hraw] at hq
          exact hq.symm
      by_cases hr : r0 = r
      · subst hr
        rw [combTimes_map_eq, filter_eq_nil_of_false _ hall]
        rfl
      · exact combTimes_map_ne r r0 now hr _
    · by_cases hr : r0 = r
      · subst hr
        right
        refine ⟨hge, ?_, ?_⟩
        · rw [congrFun hcl r0]
          simp [fupd]
        · rw [combTimes_map_eq]
          obtain ⟨a, ha⟩ := List.length_eq_one.mp hlen
          rw [ha]
          rfl
      · left
        constructor
        · rw [congrFun hcl r]
          have hne : ¬(r = r0) := fun h => hr h.symm
          simp [fupd, hne]
        · exact combTimes_map_ne r r0 now hr _

/-- Whole-trace chain: as long as no raw input line itself has the
combined-KPI form, the combined-KPI emission times for radio `r` climb from
the state's clock in steps of at least one second. -/
theorem runPlain_chain (r : Int) (inputs : List (Int × ℚ × List Char)) :
    ∀ (s : PPState), scellInv s →
      (∀ inp ∈ inputs, leadsWith combPre (pyStrip inp.2.2) = false) →
      List.Chain (fun a b => a + 1 ≤ b) (s.last_combined_kpi_emit_time r)
        (combTimes r (runPlain true s inputs).2) := by
  induction inputs with
  | nil => exact fun s _ _ => List.Chain.nil
  | cons inp rest ih =>
    intro s hinv hsrc
    obtain ⟨r0, now, raw⟩ := inp
    have hraw : leadsWith combPre (pyStrip raw) = false :=
      hsrc (r0, now, raw) (List.mem_cons_self _ _)
    have hrest : ∀ inp ∈ rest, leadsWith combPre (pyStrip inp.2.2) = false :=
      fun inp h => hsrc inp (List.mem_cons_of_mem _ h)
    have hstep := runPlainStep_comb r s r0 now raw hinv hraw
    rw [runPlain_cons]
    dsimp only
    rw [combTimes_append]
    rcases hstep.2 with ⟨hc, hnil⟩ | ⟨hge, hcl, hone⟩
    · rw [hnil, List.nil_append]
      have hch := ih (runPlainStep true s (r0, now, raw)).1 hstep.1 hrest
      rw [hc] at hch
      exact hch
    · rw [hone]
      refine List.Chain.cons hge ?_
      have hch := ih (runPlainStep true s (r0, now, raw)).1 hstep.1 hrest
      rw [hcl] at hch
      exact hch

/-- The gap relation is transitive, so the chain is pairwise. -/
theorem chain_gap_pairwise (t0 : ℚ) (ts : List ℚ)
    (h : List.Chain (fun a b => a + 1 ≤ b) t0 ts) :
    List.Pairwise (fun a b => a + 1 ≤ b) (t0 :: ts) := by
  haveI : IsTrans ℚ (fun a b => a + 1 ≤ b) := ⟨fun a b c hab hbc => by linarith⟩
  exact List.chain_iff_pairwise.mp h

/-- A pairwise one-second-separated list meets any window `[t, t+1)` at most
once. -/
theorem pairwise_gap_window (t : ℚ) : ∀ (ts : List ℚ),
    List.Pairwise (fun a b => a + 1 ≤ b) ts →
    (ts.filter (fun x => decide (t ≤ x) && decide (x < t + 1))).length ≤ 1 := by
  intro ts
  induction ts with
  | nil => intro _; simp
  | cons a ts ih =>
    intro h
    rw [List.pairwise_cons] at h
    rw [List.filter_cons]
    by_cases ha : (decide (t ≤ a) && decide (a < t + 1)) = true
    · rw [if_pos ha]
      have hwin := Bool.and_eq_true _ _ |>.mp ha
      have hta : t ≤ a := of_decide_eq_true hwin.1
      have hat : a < t + 1 := of_decide_eq_true hwin.2
      have hnil : List.filter (fun x => decide (t ≤ x) && decide (x < t + 1)) ts = [] := by
        apply filter_eq_nil_of_false
        intro b hb
        have hab : a + 1 ≤ b := h.1 b hb
        have hnb : ¬(b < t + 1) := by linarith
        rw [decide_eq_false hnb, Bool.and_false]
      rw [hnil]
      simp
    · rw [if_neg ha]
      exact ih h.2

/-- C7: in KPI mode on the plain path, for every radio `r` and every
one-second window `[t, t+1)`, at most one combined-KPI line
(`LTE KPI: UL MCS=..., TX power=... dBm, TA=...`) is emitted for `r`,
provided no raw decoder line itself already has the combined-KPI form. -/
theorem c7_combined_kpi_window (s0 : PPState)
    (inputs : List (Int × ℚ × List Char)) (r : Int) (t : ℚ)
    (hinv : scellInv s0)
    (hsrc : ∀ inp ∈ inputs, leadsWith combPre (pyStrip inp.2.2) = false) :
    ((combTimes r (runPlain true s0 inputs).2).filter
        (fun x => decide (t ≤ x) && decide (x < t + 1))).length ≤ 1 := by
  have hchain := runPlain_chain r inputs s0 hinv hsrc
  have hpw := chain_gap_pairwise _ _ hchain
  rw [List.pairwise_cons] at hpw
  exact pairwise_gap_window t _ hpw.2

theorem c7_combined_kpi_window_witness :
    scellInv initPP ∧
    (∀ inp ∈ ([((0 : Int), (0 : ℚ), "LTE RRC State: RRC_CONNECTED".data)] :
        List (Int × ℚ × List Char)),
      leadsWith combPre (pyStrip inp.2.2) = false) ∧
    ((combTimes 0 (runPlain true initPP
        [((0 : Int), (0 : ℚ), "LTE RRC State: RRC_CONNECTED".data)]).2).filter
        (fun x => decide ((0 : ℚ) ≤ x) && decide (x < (0 : ℚ) + 1))).length ≤ 1 :=
  ⟨initPP_scellInv, by decide,
   c7_combined_kpi_window initPP
     [((0 : Int), (0 : ℚ), "LTE RRC State: RRC_CONNECTED".data)] 0 0
     initPP_scellInv (by decide)⟩

end Scat
